import Mathlib

/-!
# pylon_camera node: setpoint convergence and batch acquisition

A shallow embedding of `src/pylon_camera/pylon_camera_node.cpp`.

Modelling conventions.

* The camera driver (`pylon_camera_`) and the ROS runtime are external to the
  file; they are an interface record `Env σ` over an arbitrary world state `σ`.
  Getters observe the world, commands (grab, setters, sleeps, shutdown) change it.
* `float` values are idealised as rationals; `ros::Time` is a natural number of
  nanoseconds and `ros::Duration` an integer number of nanoseconds.
* The node keeps a log of the commands it issues, in order; the batch callback
  also logs where each of its convergence calls begins and returns.
* `while (ros::ok())` loops carry a fuel counter (one unit per evaluation of the
  loop head); running out of fuel and a failed `assert` are faults, not results.
-/

namespace PylonCamera

/-- Element type of `img_raw_msg_.data` (a `uint8_t`). -/
abbrev Byte := Fin 256

/-- Buffer handed to `pylon_camera_->grab`: the node's `img_raw_msg_.data`, or
`result.images[i].data` of a running batch. -/
inductive Dest where
  | rawMsg
  | resultImage (i : Nat)
  deriving DecidableEq, Repr

/-- Commands issued by the node, as recorded in its log. `convergeBegin` and
`convergeEnd` bracket the convergence call made for batch item `i`; `convergeEnd`
carries the value stored in `result.reached_values[i]` when the call returned. -/
inductive Call where
  | grab (dest : Dest) (ok : Bool)
  | camSetExposure (v : ℚ)
  | camSetGain (v : ℚ)
  | camSetBrightness (target : Int) (current : ℚ)
  | disableAuto
  | shutdown
  | publishFeedback (n : Nat)
  | publishImage
  | convergeBegin (i : Nat)
  | convergeEnd (i : Nat) (reached : ℚ)
  deriving DecidableEq, Repr

/-- Interface of the collaborators of the node: the `PylonCamera` object and the
ROS runtime, over a world state `σ`. -/
structure Env (σ : Type) where
  /-- Getter `pylon_camera_->isReady()`. -/
  isReady : σ → Bool
  /-- Getter `pylon_camera_->isCamRemoved()`. -/
  isCamRemoved : σ → Bool
  /-- Getter `pylon_camera_->currentExposure()`. -/
  currentExposure : σ → ℚ
  /-- Getter `pylon_camera_->currentGain()`. -/
  currentGain : σ → ℚ
  /-- Getter `pylon_camera_->exposureStep()`. -/
  exposureStep : σ → ℚ
  /-- Getter `pylon_camera_->maxBrightnessTolerance()`. -/
  maxBrightnessTolerance : σ → ℚ
  /-- Command `pylon_camera_->grab(buffer)`: old buffer contents and world to
  the returned flag, the new buffer contents and the new world. -/
  grab : List Byte → σ → Bool × List Byte × σ
  /-- Command `pylon_camera_->setExposure(v)`. -/
  setExposure : ℚ → σ → σ
  /-- Command `pylon_camera_->setGain(v)`. -/
  setGain : ℚ → σ → σ
  /-- Command `pylon_camera_->setBrightness(target, current)`; the returned flag
  is not used by the node. -/
  setBrightness : Int → ℚ → σ → σ
  /-- Command `pylon_camera_->disableAllRunningAutoBrightessFunctions()`. -/
  disableAllRunningAutoBrightessFunctions : σ → σ
  /-- Getter `ros::ok()`: false once the process-wide shutdown signal is raised. -/
  ok : σ → Bool
  /-- Getter `ros::Time::now()`, in nanoseconds. -/
  now : σ → Nat
  /-- Command `r.sleep()` of the `ros::Rate r(10.0)` of a poll loop. -/
  rateSleep : σ → σ
  /-- Command `ros::Duration(0.02).sleep()`. -/
  durationSleep : σ → σ
  /-- Command `ros::shutdown()`. -/
  shutdown : σ → σ
  /-- Getter `img_raw_pub_.getNumSubscribers()`. -/
  getNumSubscribers : σ → Nat
  /-- Value found in an uninitialised `int` local (`int reached_val;`). -/
  indeterminate : σ → Int

/-- State of the node: the world, `img_raw_msg_.data`, `is_sleeping_` and the
log of commands issued so far. -/
structure Node (σ : Type) where
  hw : σ
  img_raw_msg_data : List Byte
  is_sleeping_ : Bool
  log : List Call

/-- Faults: a loop that is still running when the fuel is spent, and a failed
`assert`. -/
inductive Fault where
  | outOfFuel
  | assertFailed
  deriving DecidableEq, Repr

/-- Return value of a setter together with its out-parameter and the node
state at return. -/
structure Ret (α : Type) (σ : Type) where
  ret : Bool
  reached : α
  node : Node σ

variable {σ : Type}

/-- Record a command in the log and move the world to `s`. -/
def Node.emit (w : Node σ) (c : Call) (s : σ) : Node σ :=
  ⟨s, w.img_raw_msg_data, w.is_sleeping_, w.log ++ [c]⟩

/-- Move the world to `s` without logging. -/
def Node.move (w : Node σ) (s : σ) : Node σ :=
  ⟨s, w.img_raw_msg_data, w.is_sleeping_, w.log⟩

/-- Nanoseconds in `ros::Duration(5.0)`. -/
def fiveSeconds : Int := 5000000000

/-- Nanoseconds in `ros::Duration(15.0)`. -/
def fifteenSeconds : Int := 15000000000

/-- Nanoseconds in `ros::Duration(3.0)`. -/
def threeSeconds : Int := 3000000000

/-- Value of `std::numeric_limits<float>::max()`. -/
def FLT_MAX : ℚ := 340282346638528859811704183484516925440

/-- Conversion `static_cast<int>(x)` of a float: truncation toward zero. -/
def truncToInt (q : ℚ) : Int := if 0 ≤ q then ⌊q⌋ else ⌈q⌉

/-- Two's complement wrap of a 32-bit `int`. -/
def wrapInt32 (z : Int) : Int := (z + 2147483648) % 4294967296 - 2147483648

/-- The call `std::accumulate(data.begin(), data.end(), 0)` with an `int`
accumulator. -/
def accumulate (data : List Byte) : Int :=
  data.foldl (fun acc b => wrapInt32 (acc + (b.val : Int))) 0

/-- Method `PylonCameraNode::calcCurrentBrightness`: `none` when the `assert`
on a non-empty buffer fails. The quotient `sum / data.size()` is taken in
`size_t` (64-bit unsigned) and then stored in a `float`. -/
def calcCurrentBrightness (data : List Byte) : Option ℚ :=
  if 0 < data.length then
    let sum : Int := accumulate data
    let mean : Nat := (sum % 18446744073709551616).toNat / data.length
    some (mean : ℚ)
  else
    none

/-- Method `PylonCameraNode::grabImage`. -/
def grabImage (env : Env σ) (w : Node σ) : Bool × Node σ :=
  let g := env.grab w.img_raw_msg_data w.hw
  let w1 : Node σ := ⟨g.2.2, g.2.1, w.is_sleeping_, w.log ++ [Call.grab Dest.rawMsg g.1]⟩
  if g.1 = false then
    if env.isCamRemoved w1.hw then
      (false, w1.emit Call.shutdown (env.shutdown w1.hw))
    else
      (false, w1)
  else
    (true, w1)

/-- Method `PylonCameraNode::spin`. -/
def spin (env : Env σ) (w : Node σ) : Node σ :=
  if 0 < env.getNumSubscribers w.hw ∧ w.is_sleeping_ = false then
    let g := grabImage env w
    if g.1 then
      ⟨g.2.hw, g.2.img_raw_msg_data, g.2.is_sleeping_, g.2.log ++ [Call.publishImage]⟩
    else
      g.2
  else
    w

/-- The `while (ros::ok())` loop of `PylonCameraNode::waitForCamera`. -/
def waitForCameraLoop (env : Env σ) (timeout : Int) (start_time : Nat) :
    Nat → Node σ → Except Fault (Bool × Node σ)
  | 0, _ => .error Fault.outOfFuel
  | fuel + 1, w =>
    if env.ok w.hw then
      if env.isReady w.hw then
        .ok (true, w)
      else if 0 ≤ timeout ∧ timeout ≤ (env.now w.hw : Int) - (start_time : Int) then
        .ok (false, w)
      else
        waitForCameraLoop env timeout start_time fuel (w.move (env.durationSleep w.hw))
    else
      .ok (false, w)

/-- Method `PylonCameraNode::waitForCamera`. -/
def waitForCamera (env : Env σ) (timeout : Int) (fuel : Nat) (w : Node σ) :
    Except Fault (Bool × Node σ) :=
  waitForCameraLoop env timeout (env.now w.hw) fuel w

/-- The `while (ros::ok())` loop of `PylonCameraNode::setExposure`; `reached`
is the current content of `reached_exposure`. -/
def setExposureLoop (env : Env σ) (target_exposure : ℚ) (start : Nat) :
    Nat → ℚ → Node σ → Except Fault (Ret ℚ σ)
  | 0, _, _ => .error Fault.outOfFuel
  | fuel + 1, reached, w =>
    if env.ok w.hw then
      let reached_exposure := env.currentExposure w.hw
      if |reached_exposure - target_exposure| < env.exposureStep w.hw then
        .ok ⟨true, reached_exposure, w⟩
      else if fiveSeconds < (env.now w.hw : Int) - (start : Int) then
        .ok ⟨false, reached_exposure, w⟩
      else
        setExposureLoop env target_exposure start fuel reached_exposure
          (w.move (env.rateSleep w.hw))
    else
      .ok ⟨true, reached, w⟩

/-- Node state of `setExposure` when its poll loop is entered (after the
conditional hardware write). -/
def setExposureEntry (env : Env σ) (target_exposure : ℚ) (w : Node σ) : Node σ :=
  if env.currentExposure w.hw ≠ target_exposure then
    w.emit (Call.camSetExposure target_exposure) (env.setExposure target_exposure w.hw)
  else
    w

/-- Method `PylonCameraNode::setExposure`; `reached0` is the content of the
out-parameter `reached_exposure` at the call. -/
def setExposure (env : Env σ) (fuel : Nat) (target_exposure : ℚ) (reached0 : ℚ)
    (w : Node σ) : Except Fault (Ret ℚ σ) :=
  if env.isReady w.hw = false then
    .ok ⟨false, reached0, w⟩
  else
    let reached_exposure := env.currentExposure w.hw
    let w1 := setExposureEntry env target_exposure w
    setExposureLoop env target_exposure (env.now w1.hw) fuel reached_exposure w1

/-- The `while (ros::ok())` loop of `PylonCameraNode::setGain`. -/
def setGainLoop (env : Env σ) (target_gain : ℚ) (start : Nat) :
    Nat → ℚ → Node σ → Except Fault (Ret ℚ σ)
  | 0, _, _ => .error Fault.outOfFuel
  | fuel + 1, reached, w =>
    if env.ok w.hw then
      let reached_gain := env.currentGain w.hw
      if |reached_gain - target_gain| < 1 / 100 then
        .ok ⟨true, reached_gain, w⟩
      else if fiveSeconds < (env.now w.hw : Int) - (start : Int) then
        .ok ⟨false, reached_gain, w⟩
      else
        setGainLoop env target_gain start fuel reached_gain (w.move (env.rateSleep w.hw))
    else
      .ok ⟨true, reached, w⟩

/-- Node state of `setGain` when its poll loop is entered. -/
def setGainEntry (env : Env σ) (target_gain : ℚ) (w : Node σ) : Node σ :=
  if env.currentGain w.hw ≠ target_gain then
    w.emit (Call.camSetGain target_gain) (env.setGain target_gain w.hw)
  else
    w

/-- Method `PylonCameraNode::setGain`. -/
def setGain (env : Env σ) (fuel : Nat) (target_gain : ℚ) (reached0 : ℚ)
    (w : Node σ) : Except Fault (Ret ℚ σ) :=
  if env.isReady w.hw = false then
    .ok ⟨false, reached0, w⟩
  else
    let reached_gain := env.currentGain w.hw
    let w1 := setGainEntry env target_gain w
    setGainLoop env target_gain (env.now w1.hw) fuel reached_gain w1

/-- Which statement ended the poll loop of `setBrightness`. -/
inductive BrightnessExit where
  | reached
  | timedOut
  | stalled
  | shutdownSignal
  deriving DecidableEq, Repr

/-- Values of the locals of `setBrightness` when its poll loop ends. -/
structure BrightnessRet (σ : Type) where
  is_brightness_reached : Bool
  current_brightness : ℚ
  exit : BrightnessExit
  node : Node σ

/-- Hardware part of one poll iteration of `setBrightness`: the camera's
`setBrightness(target_brightness, current_brightness)` followed by
`grabImage()`, whose return value the loop ignores. -/
def brightnessStep (env : Env σ) (target_brightness : Int) (current_brightness : ℚ)
    (w : Node σ) : Node σ :=
  (grabImage env
    (w.emit (Call.camSetBrightness target_brightness current_brightness)
      (env.setBrightness target_brightness current_brightness w.hw))).2

/-- The `while (ros::ok())` loop of `PylonCameraNode::setBrightness`. At the
loop head `is_brightness_reached` is false (its initial value, and its value
after every iteration that did not break). The getter
`isBrightnessSearchRunning()` at the end of the body only selects a log line
and is left out. The result records which statement ended the loop. -/
def setBrightnessLoop (env : Env σ) (target_brightness : Int) (timeout : Int) (start : Nat) :
    Nat → Nat → ℚ → ℚ → Node σ → Except Fault (BrightnessRet σ)
  | 0, _, _, _, _ => .error Fault.outOfFuel
  | fuel + 1, fail_safe_ctr, last_brightness, current_brightness, w =>
    if env.ok w.hw then
      let w1 := brightnessStep env target_brightness current_brightness w
      match calcCurrentBrightness w1.img_raw_msg_data with
      | none => .error Fault.assertFailed
      | some current =>
        if |current - (target_brightness : ℚ)| < env.maxBrightnessTolerance w1.hw then
          .ok ⟨true, current, BrightnessExit.reached,
            w1.emit Call.disableAuto (env.disableAllRunningAutoBrightessFunctions w1.hw)⟩
        else if timeout < (env.now w1.hw : Int) - (start : Int) then
          .ok ⟨false, current, BrightnessExit.timedOut,
            w1.emit Call.disableAuto (env.disableAllRunningAutoBrightessFunctions w1.hw)⟩
        else
          let ctr := if |last_brightness - current| ≤ 1 then fail_safe_ctr + 1 else fail_safe_ctr
          if 5 < ctr then
            .ok ⟨false, current, BrightnessExit.stalled, w1⟩
          else
            setBrightnessLoop env target_brightness timeout start fuel ctr current current w1
    else
      .ok ⟨false, current_brightness, BrightnessExit.shutdownSignal, w⟩

/-- The timeout chosen by `setBrightness` for its poll loop. -/
def brightnessTimeout (target_brightness : Int) : Int :=
  if 205 < target_brightness then fifteenSeconds else fiveSeconds

/-- Method `PylonCameraNode::setBrightness`; `reached0` is the content of the
out-parameter `reached_brightness` at the call. -/
def setBrightness (env : Env σ) (fuel : Nat) (target_brightness : Int) (reached0 : Int)
    (w : Node σ) : Except Fault (Ret Int σ) :=
  match waitForCamera env threeSeconds fuel w with
  | .error e => .error e
  | .ok (false, w1) => .ok ⟨false, reached0, w1⟩
  | .ok (true, w1) =>
    let g := grabImage env w1
    if g.1 = false then
      .ok ⟨false, reached0, g.2⟩
    else
      match calcCurrentBrightness g.2.img_raw_msg_data with
      | none => .error Fault.assertFailed
      | some current_brightness =>
        if |current_brightness - (target_brightness : ℚ)| ≤ 1 then
          .ok ⟨true, truncToInt current_brightness, g.2⟩
        else
          match setBrightnessLoop env target_brightness (brightnessTimeout target_brightness)
              (env.now g.2.hw) fuel 0 FLT_MAX current_brightness g.2 with
          | .error e => .error e
          | .ok r => .ok ⟨r.is_brightness_reached, truncToInt r.current_brightness, r.node⟩

/-- Field `target_type` of a `GrabImagesGoal`: the two distinct constants
`EXPOSURE` and `BRIGHTNESS` of the message, or any other value. -/
inductive TargetType where
  | EXPOSURE
  | BRIGHTNESS
  | other
  deriving DecidableEq, Repr

/-- Message `camera_control_msgs::GrabImagesGoal`. -/
structure GrabImagesGoal where
  target_type : TargetType
  target_values : List ℚ

/-- Message `camera_control_msgs::GrabImagesResult`; an image is represented by
its `data` (encoding, geometry and header are copied from getters and omitted). -/
structure GrabImagesResult where
  images : List (List Byte)
  reached_values : List ℚ
  success : Bool
  deriving DecidableEq, Repr

/-- The convergence call made for item `i` of a batch, bracketed in the log by
`convergeBegin i` and `convergeEnd i v`. -/
def batchConverge (env : Env σ) (fuel : Nat) (goal : GrabImagesGoal) (i : Nat)
    (result : GrabImagesResult) (w : Node σ) : Except Fault (GrabImagesResult × Node σ) :=
  match goal.target_type with
  | TargetType.EXPOSURE =>
    match setExposure env fuel (goal.target_values.getD i 0) (result.reached_values.getD i 0)
        (w.emit (Call.convergeBegin i) w.hw) with
    | .error e => .error e
    | .ok r =>
      .ok (⟨result.images, result.reached_values.set i r.reached, result.success⟩,
        r.node.emit (Call.convergeEnd i r.reached) r.node.hw)
  | TargetType.BRIGHTNESS =>
    match setBrightness env fuel (truncToInt (goal.target_values.getD i 0))
        (env.indeterminate w.hw) (w.emit (Call.convergeBegin i) w.hw) with
    | .error e => .error e
    | .ok r =>
      .ok (⟨result.images, result.reached_values.set i (r.reached : ℚ), result.success⟩,
        r.node.emit (Call.convergeEnd i (r.reached : ℚ)) r.node.hw)
  | TargetType.other => .ok (result, w)

/-- The `for` loop of `grabImagesRawActionExecuteCB`: `n` iterations remain and
the next index is `i`. -/
def batchLoop (env : Env σ) (fuel : Nat) (goal : GrabImagesGoal) :
    Nat → Nat → GrabImagesResult → Node σ → Except Fault (GrabImagesResult × Node σ)
  | 0, _, result, w => .ok (result, w)
  | n + 1, i, result, w =>
    match batchConverge env fuel goal i result w with
    | .error e => .error e
    | .ok (result1, w1) =>
      let g := env.grab (result1.images.getD i []) w1.hw
      let result2 : GrabImagesResult :=
        ⟨result1.images.set i g.2.1, result1.reached_values,
          if g.1 = false then false else result1.success⟩
      let w2 : Node σ :=
        ⟨g.2.2, w1.img_raw_msg_data, w1.is_sleeping_,
          w1.log ++ [Call.grab (Dest.resultImage i) g.1, Call.publishFeedback (i + 1)]⟩
      batchLoop env fuel goal n (i + 1) result2 w2

/-- Method `PylonCameraNode::grabImagesRawActionExecuteCB`: the result handed
to `setSucceeded`, and the node state at that point. `fuel` bounds each poll
loop entered by the convergence calls. -/
def grabImagesRawActionExecuteCB (env : Env σ) (fuel : Nat) (goal : GrabImagesGoal)
    (w : Node σ) : Except Fault (GrabImagesResult × Node σ) :=
  let n := goal.target_values.length
  match batchLoop env fuel goal n 0 ⟨List.replicate n [], List.replicate n 0, true⟩ w with
  | .error e => .error e
  | .ok (result, w1) =>
    if result.success = false then
      .ok (⟨[], result.reached_values, result.success⟩, w1)
    else
      .ok (result, w1)

/-! ## A scripted stand-in for the camera and the runtime -/

/-- World of the scripted stand-in: a clock, the `ros::ok()` flag, the readiness
and removal flags, and the outcomes of the upcoming grabs (flag, first sample,
remaining samples). -/
structure Mock where
  clock : Nat
  alive : Bool
  ready : Bool
  removed : Bool
  grabs : List (Bool × Byte × List Byte)
  deriving DecidableEq, Repr

/-- Constants of the scripted stand-in: the values its getters report. -/
structure MockCfg where
  exposure : ℚ
  gain : ℚ
  step : ℚ
  tolerance : ℚ
  subscribers : Nat

/-- Advance the clock of the scripted world. -/
def Mock.tick (s : Mock) (d : Nat) : Mock :=
  ⟨s.clock + d, s.alive, s.ready, s.removed, s.grabs⟩

/-- The scripted stand-in: its getters report the constants of `c`, setters
leave the reported values unchanged, a sleep of the poll rate takes 100 ms, the
short sleep 20 ms, a grab 100 ms; a grab consumes the next scripted outcome and
fails with a one-sample frame once the script is used up. -/
def mockEnv (c : MockCfg) : Env Mock where
  isReady := fun s => s.ready
  isCamRemoved := fun s => s.removed
  currentExposure := fun _ => c.exposure
  currentGain := fun _ => c.gain
  exposureStep := fun _ => c.step
  maxBrightnessTolerance := fun _ => c.tolerance
  grab := fun _ s =>
    match s.grabs with
    | [] => (false, [0], ⟨s.clock + 100000000, s.alive, s.ready, s.removed, []⟩)
    | g :: rest =>
      (g.1, g.2.1 :: g.2.2, ⟨s.clock + 100000000, s.alive, s.ready, s.removed, rest⟩)
  setExposure := fun _ s => s
  setGain := fun _ s => s
  setBrightness := fun _ _ s => s
  disableAllRunningAutoBrightessFunctions := fun s => s
  ok := fun s => s.alive
  now := fun s => s.clock
  rateSleep := fun s => s.tick 100000000
  durationSleep := fun s => s.tick 20000000
  shutdown := fun s => ⟨s.clock, false, s.ready, s.removed, s.grabs⟩
  getNumSubscribers := fun _ => c.subscribers
  indeterminate := fun _ => 0

/-- A camera that always reports the same values and delivers the same
one-sample frame, in a world where the shutdown signal is never raised; the
world state is the clock. -/
def stuckEnv (c : MockCfg) (frame : Byte) : Env Nat where
  isReady := fun _ => true
  isCamRemoved := fun _ => false
  currentExposure := fun _ => c.exposure
  currentGain := fun _ => c.gain
  exposureStep := fun _ => c.step
  maxBrightnessTolerance := fun _ => c.tolerance
  grab := fun _ s => (true, [frame], s + 100000000)
  setExposure := fun _ s => s
  setGain := fun _ s => s
  setBrightness := fun _ _ s => s
  disableAllRunningAutoBrightessFunctions := fun s => s
  ok := fun _ => true
  now := fun s => s
  rateSleep := fun s => s + 100000000
  durationSleep := fun s => s + 20000000
  shutdown := fun s => s
  getNumSubscribers := fun _ => c.subscribers
  indeterminate := fun _ => 0

/-! ## Predicates used to state the properties -/

/-- Node state at which `setBrightness` reads the `start` time of its poll loop:
the state after `waitForCamera` succeeded and the first `grabImage` delivered a
frame; `none` when the call returns before that. -/
def setBrightnessEntry (env : Env σ) (fuel : Nat) (w : Node σ) : Option (Node σ) :=
  match waitForCamera env threeSeconds fuel w with
  | .ok (true, w1) => if (grabImage env w1).1 = true then some (grabImage env w1).2 else none
  | _ => none

/-- The next `n` poll iterations of `setBrightness`, run from the loop state
`(last_brightness, current_brightness, w)`, each take a measurement that is not
within the camera's tolerance of the target and that differs by at most 1.0
from the measurement of the preceding iteration. -/
def stalledFor (env : Env σ) (target_brightness : Int) : Nat → ℚ → ℚ → Node σ → Bool
  | 0, _, _, _ => true
  | n + 1, last_brightness, current_brightness, w =>
    let w1 := brightnessStep env target_brightness current_brightness w
    match calcCurrentBrightness w1.img_raw_msg_data with
    | none => false
    | some current =>
      !decide (|current - (target_brightness : ℚ)| < env.maxBrightnessTolerance w1.hw)
        && decide (|last_brightness - current| ≤ 1)
        && stalledFor env target_brightness n current current w1

/-- Number of the first `n` poll iterations of `setBrightness`, run from the
loop state `(last_brightness, current_brightness, w)`, whose measurement differs
by at most 1.0 from the measurement of the preceding iteration. -/
def stallCount (env : Env σ) (target_brightness : Int) : Nat → ℚ → ℚ → Node σ → Nat
  | 0, _, _, _ => 0
  | n + 1, last_brightness, current_brightness, w =>
    let w1 := brightnessStep env target_brightness current_brightness w
    match calcCurrentBrightness w1.img_raw_msg_data with
    | none => 0
    | some current =>
      (if |last_brightness - current| ≤ 1 then 1 else 0)
        + stallCount env target_brightness n current current w1

/-- Locals `current_brightness` and node state after the hardware part of `n`
further poll iterations of `setBrightness`, run from `(current_brightness, w)`;
`none` when one of the frames is empty. -/
def pollState (env : Env σ) (target_brightness : Int) : Nat → ℚ → Node σ → Option (ℚ × Node σ)
  | 0, current_brightness, w => some (current_brightness, w)
  | n + 1, current_brightness, w =>
    let w1 := brightnessStep env target_brightness current_brightness w
    match calcCurrentBrightness w1.img_raw_msg_data with
    | none => none
    | some current => pollState env target_brightness n current w1

/-- The next `n` poll iterations of `setBrightness` each find `ros::ok()` true
at the loop head, measure a non-empty frame, miss the tolerance and are not
past the timeout: none of them leaves the loop by another exit than the stall
exit. -/
def pollsOn (env : Env σ) (target_brightness : Int) (timeout : Int) (start : Nat) :
    Nat → ℚ → Node σ → Bool
  | 0, _, _ => true
  | n + 1, current_brightness, w =>
    let w1 := brightnessStep env target_brightness current_brightness w
    env.ok w.hw &&
      match calcCurrentBrightness w1.img_raw_msg_data with
      | none => false
      | some current =>
        !decide (|current - (target_brightness : ℚ)| < env.maxBrightnessTolerance w1.hw)
          && !decide (timeout < (env.now w1.hw : Int) - (start : Int))
          && pollsOn env target_brightness timeout start n current w1

/-- The stall count as the specification words it: the number of consecutive
iterations, ending with the last of the first `n` poll iterations, whose
measurement differs by at most 1.0 from the preceding one; `streak` is the
count on entry and an iteration that changes by more than 1.0 restarts it. -/
def consecutiveStalls (env : Env σ) (target_brightness : Int) :
    Nat → Nat → ℚ → ℚ → Node σ → Nat
  | 0, streak, _, _, _ => streak
  | n + 1, streak, last_brightness, current_brightness, w =>
    let w1 := brightnessStep env target_brightness current_brightness w
    match calcCurrentBrightness w1.img_raw_msg_data with
    | none => streak
    | some current =>
      consecutiveStalls env target_brightness n
        (if |last_brightness - current| ≤ 1 then streak + 1 else 0) current current w1

/-- What one batch item contributed to a run: the commands issued inside its
convergence call, the value the call left in `result.reached_values[i]`, and
the flag returned by the grab into `result.images[i].data`. -/
structure ItemRun where
  inner : List Call
  reached : ℚ
  ok : Bool

/-- Commands of batch item `i` in the order of the loop body: the bracketed
convergence call (absent when `target_type` is neither `EXPOSURE` nor
`BRIGHTNESS`), the grab into `result.images[i].data`, the feedback `i + 1`. -/
def itemTrace (target_type : TargetType) (i : Nat) (it : ItemRun) : List Call :=
  (if target_type = TargetType.other then []
    else Call.convergeBegin i :: (it.inner ++ [Call.convergeEnd i it.reached]))
    ++ [Call.grab (Dest.resultImage i) it.ok, Call.publishFeedback (i + 1)]

/-- Commands of the batch items `i, i + 1, ...` one after the other. -/
def batchTrace (target_type : TargetType) : Nat → List ItemRun → List Call
  | _, [] => []
  | i, it :: rest => itemTrace target_type i it ++ batchTrace target_type (i + 1) rest

/-- The command `c` is one of the four commands the batch loop itself logs for
item `j`: the brackets of its convergence call, the grab into
`result.images[j].data`, and the feedback carrying `j + 1`. -/
def Call.ofItem (j : Nat) (c : Call) : Prop :=
  (∃ b, c = Call.grab (Dest.resultImage j) b) ∨ c = Call.publishFeedback (j + 1) ∨
    c = Call.convergeBegin j ∨ (∃ v, c = Call.convergeEnd j v)

/-- Commands that a convergence call can issue: everything except the batch
grabs, the feedback and the brackets written by the batch itself. -/
def Call.isInner : Call → Bool
  | Call.grab Dest.rawMsg _ => true
  | Call.camSetExposure _ => true
  | Call.camSetGain _ => true
  | Call.camSetBrightness _ _ => true
  | Call.disableAuto => true
  | Call.shutdown => true
  | _ => false

/-- Fuel that lets every poll loop of the node run to its timeout when the
clock advances by at least one nanosecond per iteration. -/
def pollFuel : Nat := 15000000002

/-- Progress assumptions under which the calls of the node return: sleeping
takes time, the hardware part of a brightness poll takes time, a grab that
succeeds leaves at least one sample in the buffer, and no grab empties a buffer
that held samples (a failed grab may leave an empty buffer empty). -/
structure Live (env : Env σ) : Prop where
  rateSleep_pos : ∀ s, env.now s < env.now (env.rateSleep s)
  durationSleep_pos : ∀ s, env.now s < env.now (env.durationSleep s)
  step_pos : ∀ (t : Int) (cur : ℚ) (w : Node σ),
    env.now w.hw < env.now (brightnessStep env t cur w).hw
  frame_nonempty : ∀ buf s, ((env.grab buf s).1 = true ∨ buf ≠ []) → (env.grab buf s).2.1 ≠ []

/-- Clock assumptions of the timeout bound: one iteration of a poll loop,
including the disabling of the auto functions when the brightness loop exits,
advances the clock by at most `P` nanoseconds. -/
structure PollWithin (env : Env σ) (P : Nat) : Prop where
  rateSleep_le : ∀ s, env.now (env.rateSleep s) ≤ env.now s + P
  step_le : ∀ (t : Int) (cur : ℚ) (w : Node σ),
    env.now (brightnessStep env t cur w).hw ≤ env.now w.hw + P
  step_disable_le : ∀ (t : Int) (cur : ℚ) (w : Node σ),
    env.now (env.disableAllRunningAutoBrightessFunctions (brightnessStep env t cur w).hw)
      ≤ env.now w.hw + P

/-! # Properties -/

/-! ## Evaluation helpers -/

theorem truncToInt_natCast (n : ℕ) : truncToInt (n : ℚ) = (n : Int) := by
  have h : (0 : ℚ) ≤ (n : ℚ) := Nat.cast_nonneg n
  simp [truncToInt, h]

/-! ## grabImage and spin -/

theorem grabImage_fst (env : Env σ) (w : Node σ) :
    (grabImage env w).1 = (env.grab w.img_raw_msg_data w.hw).1 := by
  cases h : (env.grab w.img_raw_msg_data w.hw).1
  · cases h2 : env.isCamRemoved (env.grab w.img_raw_msg_data w.hw).2.2 <;>
      simp [grabImage, h, h2]
  · simp [grabImage, h]

theorem grabImage_data (env : Env σ) (w : Node σ) :
    (grabImage env w).2.img_raw_msg_data = (env.grab w.img_raw_msg_data w.hw).2.1 := by
  cases h : (env.grab w.img_raw_msg_data w.hw).1
  · cases h2 : env.isCamRemoved (env.grab w.img_raw_msg_data w.hw).2.2 <;>
      simp [grabImage, h, h2, Node.emit]
  · simp [grabImage, h]

/-- C7: when the camera's grab fails, `grabImage` returns false; if the camera
reports removal, the log gains exactly the failed grab followed by one
`ros::shutdown()` (no second grab), otherwise it gains the failed grab alone
and the world is the one the grab left; `spin` then publishes nothing. -/
theorem grabImage_on_failed_grab (env : Env σ) (w : Node σ)
    (hfail : (env.grab w.img_raw_msg_data w.hw).1 = false) :
    (grabImage env w).1 = false ∧
    (env.isCamRemoved (env.grab w.img_raw_msg_data w.hw).2.2 = true →
      (grabImage env w).2.log = w.log ++ [Call.grab Dest.rawMsg false, Call.shutdown] ∧
      (grabImage env w).2.hw = env.shutdown (env.grab w.img_raw_msg_data w.hw).2.2) ∧
    (env.isCamRemoved (env.grab w.img_raw_msg_data w.hw).2.2 = false →
      (grabImage env w).2.log = w.log ++ [Call.grab Dest.rawMsg false] ∧
      (grabImage env w).2.hw = (env.grab w.img_raw_msg_data w.hw).2.2) ∧
    (spin env w = w ∨ spin env w = (grabImage env w).2) := by
  have h1 : (grabImage env w).1 = false := by rw [grabImage_fst, hfail]
  refine ⟨h1, ?_, ?_, ?_⟩
  · intro hrem
    simp [grabImage, hfail, hrem, Node.emit]
  · intro hrem
    simp [grabImage, hfail, hrem]
  · unfold spin
    split
    · right
      simp [h1]
    · left
      rfl

/-- A removed camera whose grab fails: the premise of C7 holds and the
conclusion is instantiated on the scripted stand-in. -/
theorem grabImage_on_failed_grab_witness :
    ((mockEnv ⟨100, 1 / 2, 1, 1, 1⟩).grab [] ⟨0, true, true, true, []⟩).1 = false ∧
    (grabImage (mockEnv ⟨100, 1 / 2, 1, 1, 1⟩)
      ⟨⟨0, true, true, true, []⟩, [], false, []⟩).1 = false :=
  ⟨rfl, (grabImage_on_failed_grab (mockEnv ⟨100, 1 / 2, 1, 1, 1⟩)
      ⟨⟨0, true, true, true, []⟩, [], false, []⟩ rfl).1⟩

/-- A sum that fits an `int` is not changed by the wrap. -/
theorem wrapInt32_small (z : Int) (h0 : 0 ≤ z) (h1 : z < 2147483648) : wrapInt32 z = z := by
  unfold wrapInt32
  rw [Int.emod_eq_of_lt (by linarith) (by linarith)]
  ring

theorem accumulate_single (b : Byte) : accumulate [b] = (b.val : Int) := by
  have hb : (b.val : Int) < 256 := by exact_mod_cast b.isLt
  have h0 : (0 : Int) ≤ (b.val : Int) := Int.natCast_nonneg _
  unfold accumulate
  rw [List.foldl_cons, List.foldl_nil, zero_add]
  exact wrapInt32_small _ h0 (by linarith)

/-- The brightness of a one-sample frame is that sample. -/
theorem calc_single (b : Byte) : calcCurrentBrightness [b] = some ((b.val : ℕ) : ℚ) := by
  have hb : (b.val : Int) < 256 := by exact_mod_cast b.isLt
  have h0 : (0 : Int) ≤ (b.val : Int) := Int.natCast_nonneg _
  have hmod : (b.val : Int) % 18446744073709551616 = (b.val : Int) :=
    Int.emod_eq_of_lt h0 (by linarith)
  unfold calcCurrentBrightness
  rw [if_pos (by rw [List.length_singleton]; exact Nat.one_pos)]
  simp only [accumulate_single, hmod, Int.toNat_natCast, List.length_singleton, Nat.div_one]

/-- The commands logged by `grabImage` are the grab and possibly the shutdown. -/
theorem grabImage_log (env : Env σ) (w : Node σ) :
    ∃ inner, (grabImage env w).2.log = w.log ++ inner ∧ ∀ c ∈ inner, Call.isInner c = true := by
  cases h : (env.grab w.img_raw_msg_data w.hw).1
  · cases h2 : env.isCamRemoved (env.grab w.img_raw_msg_data w.hw).2.2
    · exact ⟨[Call.grab Dest.rawMsg false], by simp [grabImage, h, h2], by simp [Call.isInner]⟩
    · exact ⟨[Call.grab Dest.rawMsg false, Call.shutdown],
        by simp [grabImage, h, h2, Node.emit], by simp [Call.isInner]⟩
  · exact ⟨[Call.grab Dest.rawMsg true], by simp [grabImage, h], by simp [Call.isInner]⟩

theorem brightnessStep_data (env : Env σ) (t : Int) (cur : ℚ) (w : Node σ) :
    (brightnessStep env t cur w).img_raw_msg_data
      = (env.grab w.img_raw_msg_data (env.setBrightness t cur w.hw)).2.1 := by
  simp [brightnessStep, grabImage_data, Node.emit]

theorem brightnessStep_log (env : Env σ) (t : Int) (cur : ℚ) (w : Node σ) :
    ∃ inner, (brightnessStep env t cur w).log = w.log ++ inner ∧
      ∀ c ∈ inner, Call.isInner c = true := by
  obtain ⟨inner, h1, h2⟩ := grabImage_log env
    (w.emit (Call.camSetBrightness t cur) (env.setBrightness t cur w.hw))
  refine ⟨Call.camSetBrightness t cur :: inner, ?_, ?_⟩
  · rw [brightnessStep, h1]
    simp [Node.emit]
  · intro c hc
    rcases List.mem_cons.1 hc with rfl | hc
    · rfl
    · exact h2 c hc

theorem calcCurrentBrightness_isSome (data : List Byte) (h : data ≠ []) :
    ∃ m, calcCurrentBrightness data = some m := by
  have hl : 0 < data.length := List.length_pos.2 h
  rw [calcCurrentBrightness, if_pos hl]
  exact ⟨_, rfl⟩

/-- The loop of `waitForCamera` returns once the fuel covers the three seconds. -/
theorem waitForCameraLoop_returns (env : Env σ)
    (hpos : ∀ s, env.now s < env.now (env.durationSleep s)) (start : Nat) :
    ∀ (fuel : Nat) (w : Node σ),
      start + 3000000001 - env.now w.hw ≤ fuel → 1 ≤ fuel →
      ∃ b w1, waitForCameraLoop env threeSeconds start fuel w = .ok (b, w1) ∧
        w1.log = w.log := by
  intro fuel
  induction fuel with
  | zero => intro _ _ h1; omega
  | succ fuel ih =>
    intro w hm _
    unfold waitForCameraLoop
    cases hok : env.ok w.hw
    · simp only [Bool.false_eq_true, if_false]
      exact ⟨_, _, rfl, rfl⟩
    · simp only [if_true]
      cases hr : env.isReady w.hw
      · simp only [Bool.false_eq_true, if_false]
        by_cases ht : 0 ≤ threeSeconds ∧
            threeSeconds ≤ (env.now w.hw : Int) - (start : Int)
        · simp only [ht, and_self, if_true]
          exact ⟨_, _, rfl, rfl⟩
        · simp only [ht, if_false]
          have h1 := hpos w.hw
          unfold threeSeconds at ht
          have := ih (w.move (env.durationSleep w.hw))
            (by simp only [Node.move]; omega) (by omega)
          simpa [Node.move] using this
      · simp only [if_true]
        exact ⟨_, _, rfl, rfl⟩

/-- The poll loop of `setBrightness` returns once the fuel covers the time left
until the timeout, and logs only commands of a convergence call. -/
theorem setBrightnessLoop_returns (env : Env σ) (hlive : Live env) (target : Int)
    (T start : Nat) :
    ∀ (fuel ctr : Nat) (last cur : ℚ) (w : Node σ),
      w.img_raw_msg_data ≠ [] →
      start + T + 1 - env.now w.hw ≤ fuel → 1 ≤ fuel →
      ∃ r inner, setBrightnessLoop env target (T : Int) start fuel ctr last cur w = .ok r ∧
        r.node.log = w.log ++ inner ∧ ∀ c ∈ inner, Call.isInner c = true := by
  intro fuel
  induction fuel with
  | zero => intro _ _ _ _ _ _ h1; omega
  | succ fuel ih =>
    intro ctr last cur w hdata hm _
    unfold setBrightnessLoop
    cases hok : env.ok w.hw
    · simp only [Bool.false_eq_true, if_false]
      exact ⟨_, [], rfl, by simp, by simp⟩
    · simp only [if_true]
      obtain ⟨inner, hlog, hinner⟩ := brightnessStep_log env target cur w
      have hdata1 : (brightnessStep env target cur w).img_raw_msg_data ≠ [] := by
        rw [brightnessStep_data]
        exact hlive.frame_nonempty _ _ (Or.inr hdata)
      obtain ⟨m, hm1⟩ := calcCurrentBrightness_isSome
        (brightnessStep env target cur w).img_raw_msg_data hdata1
      simp only [hm1]
      have hdis : ∀ c ∈ inner ++ [Call.disableAuto], Call.isInner c = true := by
        intro c hc
        rcases List.mem_append.1 hc with hc | hc
        · exact hinner c hc
        · simp only [List.mem_singleton] at hc
          subst hc
          rfl
      by_cases hs : |m - (target : ℚ)| <
          env.maxBrightnessTolerance (brightnessStep env target cur w).hw
      · simp only [hs, if_true]
        exact ⟨_, inner ++ [Call.disableAuto], rfl, by simp [Node.emit, hlog], hdis⟩
      · simp only [hs, if_false]
        by_cases ht : (T : Int) <
            (env.now (brightnessStep env target cur w).hw : Int) - (start : Int)
        · simp only [ht, if_true]
          exact ⟨_, inner ++ [Call.disableAuto], rfl, by simp [Node.emit, hlog], hdis⟩
        · simp only [ht, if_false]
          generalize (if |last - m| ≤ 1 then ctr + 1 else ctr) = ctr1
          by_cases h5 : 5 < ctr1
          · simp only [h5, if_true]
            exact ⟨_, inner, rfl, hlog, hinner⟩
          · simp only [h5, if_false]
            have h1 := hlive.step_pos target cur w
            obtain ⟨r, inner2, hr, hlog2, hinner2⟩ :=
              ih ctr1 m m (brightnessStep env target cur w) hdata1 (by omega) (by omega)
            refine ⟨r, inner ++ inner2, hr, by rw [hlog2, hlog, List.append_assoc], ?_⟩
            intro c hc
            rcases List.mem_append.1 hc with hc | hc
            · exact hinner c hc
            · exact hinner2 c hc

/-! ## Poll loops of setExposure and setGain -/

/-- The poll loop of `setExposure` returns once the fuel covers the time left
until the timeout; it leaves the log untouched. -/
theorem setExposureLoop_returns (env : Env σ) (hpos : ∀ s, env.now s < env.now (env.rateSleep s))
    (target : ℚ) (start : Nat) :
    ∀ (fuel : Nat) (reached : ℚ) (w : Node σ),
      start + 5000000002 - env.now w.hw ≤ fuel → 1 ≤ fuel →
      ∃ r, setExposureLoop env target start fuel reached w = .ok r ∧ r.node.log = w.log := by
  intro fuel
  induction fuel with
  | zero => intro _ _ _ h1; omega
  | succ fuel ih =>
    intro reached w hm _
    unfold setExposureLoop
    cases hok : env.ok w.hw
    · simp only [Bool.false_eq_true, if_false]
      exact ⟨_, rfl, rfl⟩
    · simp only [if_true]
      by_cases hs : |env.currentExposure w.hw - target| < env.exposureStep w.hw
      · simp only [hs, if_true]
        exact ⟨_, rfl, rfl⟩
      · simp only [hs, if_false]
        by_cases ht : fiveSeconds < (env.now w.hw : Int) - (start : Int)
        · simp only [ht, if_true]
          exact ⟨_, rfl, rfl⟩
        · simp only [ht, if_false]
          have h1 := hpos w.hw
          unfold fiveSeconds at ht
          have := ih (env.currentExposure w.hw) (w.move (env.rateSleep w.hw))
            (by simp only [Node.move]; omega) (by omega)
          simpa [Node.move] using this

/-- Without a shutdown signal and with a camera that never reports an exposure
within tolerance, a return of the poll loop of `setExposure` is a failure, at
most `P` past the timeout. -/
theorem setExposureLoop_false (env : Env σ) (P : Nat) (hok : ∀ s, env.ok s = true)
    (hle : ∀ s, env.now (env.rateSleep s) ≤ env.now s + P)
    (target : ℚ) (hnever : ∀ s, ¬ |env.currentExposure s - target| < env.exposureStep s)
    (start : Nat) :
    ∀ (fuel : Nat) (reached : ℚ) (w : Node σ) (r : Ret ℚ σ),
      (env.now w.hw : Int) ≤ start + fiveSeconds + P →
      setExposureLoop env target start fuel reached w = .ok r →
      r.ret = false ∧ (env.now r.node.hw : Int) ≤ start + fiveSeconds + P := by
  intro fuel
  induction fuel with
  | zero => intro _ _ _ _ h; simp [setExposureLoop] at h
  | succ fuel ih =>
    intro reached w r hinv h
    unfold setExposureLoop at h
    simp only [hok, if_true, hnever, if_false] at h
    by_cases ht : fiveSeconds < (env.now w.hw : Int) - (start : Int)
    · simp only [ht, if_true, Except.ok.injEq] at h
      subst h
      exact ⟨rfl, hinv⟩
    · simp only [ht, if_false] at h
      refine ih _ _ r ?_ h
      have h1 := hle w.hw
      simp only [Node.move]
      omega

/-- Without a shutdown signal and with frames whose brightness is never within
tolerance, a return of the poll loop of `setBrightness` is a failure, at most
`P` past the timeout. -/
theorem setBrightnessLoop_false (env : Env σ) (P : Nat) (hok : ∀ s, env.ok s = true)
    (hwithin : PollWithin env P) (target : Int)
    (hnever : ∀ buf s m, calcCurrentBrightness (env.grab buf s).2.1 = some m →
      ∀ s1, ¬ |m - (target : ℚ)| < env.maxBrightnessTolerance s1)
    (timeout : Int) (start : Nat) :
    ∀ (fuel ctr : Nat) (last cur : ℚ) (w : Node σ) (r : BrightnessRet σ),
      (env.now w.hw : Int) ≤ start + timeout →
      setBrightnessLoop env target timeout start fuel ctr last cur w = .ok r →
      r.is_brightness_reached = false ∧ (env.now r.node.hw : Int) ≤ start + timeout + P := by
  intro fuel
  induction fuel with
  | zero => intro _ _ _ _ _ _ h; simp [setBrightnessLoop] at h
  | succ fuel ih =>
    intro ctr last cur w r hinv h
    unfold setBrightnessLoop at h
    simp only [hok, if_true] at h
    cases hc : calcCurrentBrightness (brightnessStep env target cur w).img_raw_msg_data with
    | none => simp [hc] at h
    | some m =>
      simp only [hc] at h
      have hn : ¬ |m - (target : ℚ)| <
          env.maxBrightnessTolerance (brightnessStep env target cur w).hw := by
        rw [brightnessStep_data] at hc
        exact hnever _ _ m hc _
      simp only [hn, if_false] at h
      have h1 := hwithin.step_le target cur w
      have h2 := hwithin.step_disable_le target cur w
      by_cases ht : timeout <
          (env.now (brightnessStep env target cur w).hw : Int) - (start : Int)
      · simp only [ht, if_true, Except.ok.injEq] at h
        subst h
        refine ⟨rfl, ?_⟩
        simp only [Node.emit]
        omega
      · simp only [ht, if_false] at h
        generalize (if |last - m| ≤ 1 then ctr + 1 else ctr) = ctr1 at h
        by_cases h5 : 5 < ctr1
        · simp only [h5, if_true, Except.ok.injEq] at h
          subst h
          refine ⟨rfl, ?_⟩
          show (env.now (brightnessStep env target cur w).hw : Int) ≤ _
          omega
        · simp only [h5, if_false] at h
          exact ih ctr1 m m _ r (by omega) h

/-- C10: on the two-sample frame `[1, 2]` `calcCurrentBrightness` returns 1,
the truncated integer quotient `3 / 2`, while the arithmetic mean is `3 / 2`. -/
theorem calcCurrentBrightness_truncates :
    calcCurrentBrightness [1, 2] = some 1 ∧
    calcCurrentBrightness [1, 2] ≠ some (((1 : ℚ) + 2) / 2) := by
  have h : calcCurrentBrightness [1, 2] = some 1 := by rfl
  refine ⟨h, ?_⟩
  rw [h]
  norm_num

/-- C9 fails as stated: with the camera reporting gain 127/250 against the
target 1/2 the poll of `setGain` reports success, although the deviation 1/125
is not below one percent of the target (1/200). -/
theorem setGain_one_percent_of_target_fails :
    setGainLoop (mockEnv ⟨100, 127 / 250, 1, 1, 1⟩) (1 / 2) 0 1 0
        ⟨⟨0, true, true, false, []⟩, [], false, []⟩
      = .ok ⟨true, 127 / 250, ⟨⟨0, true, true, false, []⟩, [], false, []⟩⟩ ∧
    ¬ (|(127 / 250 : ℚ) - 1 / 2| < 1 / 100 * |(1 / 2 : ℚ)|) := by
  constructor
  · norm_num [setGainLoop, mockEnv, abs_lt]
  · rw [abs_of_pos (by norm_num : (0 : ℚ) < 1 / 2),
      abs_of_pos (by norm_num : (0 : ℚ) < 127 / 250 - 1 / 2)]
    norm_num

/-- C9 as amended: while the shutdown signal is not raised, one poll of
`setGain` reports success exactly when the gain read in that poll differs from
the target by less than the absolute amount 0.01. -/
theorem setGainLoop_success_iff (env : Env σ) (target_gain : ℚ) (start : Nat)
    (reached : ℚ) (w : Node σ) (hok : env.ok w.hw = true) :
    (∃ r, setGainLoop env target_gain start 1 reached w = .ok r ∧ r.ret = true) ↔
      |env.currentGain w.hw - target_gain| < 1 / 100 := by
  by_cases h : |env.currentGain w.hw - target_gain| < 1 / 100
  · simp only [setGainLoop, hok, h, if_true]
    simp
  · by_cases ht : fiveSeconds < (env.now w.hw : Int) - (start : Int)
    · simp only [setGainLoop, hok, h, ht, if_true, if_false]
      simp
    · simp only [setGainLoop, hok, h, ht, if_true, if_false]
      simp

/-- The amended C9 at a concrete poll of the scripted stand-in. -/
theorem setGainLoop_success_iff_witness :
    (mockEnv ⟨100, 127 / 250, 1, 1, 1⟩).ok ⟨0, true, true, false, []⟩ = true ∧
    ((∃ r, setGainLoop (mockEnv ⟨100, 127 / 250, 1, 1, 1⟩) (1 / 2) 0 1 0
        ⟨⟨0, true, true, false, []⟩, [], false, []⟩ = .ok r ∧ r.ret = true) ↔
      |(mockEnv ⟨100, 127 / 250, 1, 1, 1⟩).currentGain ⟨0, true, true, false, []⟩ - 1 / 2|
        < 1 / 100) :=
  ⟨rfl, setGainLoop_success_iff (mockEnv ⟨100, 127 / 250, 1, 1, 1⟩) (1 / 2) 0 0
    ⟨⟨0, true, true, false, []⟩, [], false, []⟩ rfl⟩

/-- C4 fails as stated: the camera reports exposure 201/2, within the step 1 of
the target 100, and `setExposure` still issues the hardware write. -/
theorem setExposure_writes_within_tolerance :
    |(201 / 2 : ℚ) - 100| < 1 ∧
    ∃ r, setExposure (mockEnv ⟨201 / 2, 1 / 2, 1, 1, 1⟩) 1 100 0
        ⟨⟨0, true, true, false, []⟩, [], false, []⟩ = .ok r ∧
      r.node.log = [Call.camSetExposure 100] := by
  constructor
  · norm_num [abs_lt]
  · norm_num [setExposure, setExposureEntry, setExposureLoop, mockEnv, Node.emit, abs_lt]

/-- The poll loop of `setExposure` logs nothing. -/
theorem setExposureLoop_log (env : Env σ) (target : ℚ) (start : Nat) :
    ∀ (fuel : Nat) (reached : ℚ) (w : Node σ) (r : Ret ℚ σ),
      setExposureLoop env target start fuel reached w = .ok r → r.node.log = w.log := by
  intro fuel
  induction fuel with
  | zero => intro _ _ _ h; simp [setExposureLoop] at h
  | succ fuel ih =>
    intro reached w r h
    unfold setExposureLoop at h
    cases hok : env.ok w.hw
    · simp only [hok, Bool.false_eq_true, if_false, Except.ok.injEq] at h
      subst h
      rfl
    · simp only [hok, if_true] at h
      by_cases hs : |env.currentExposure w.hw - target| < env.exposureStep w.hw
      · simp only [hs, if_true, Except.ok.injEq] at h
        subst h
        rfl
      · simp only [hs, if_false] at h
        by_cases ht : fiveSeconds < (env.now w.hw : Int) - (start : Int)
        · simp only [ht, if_true, Except.ok.injEq] at h
          subst h
          rfl
        · simp only [ht, if_false] at h
          have h2 := ih _ _ r h
          exact h2

/-- C4 as amended: on a ready camera, (1) if the reported exposure equals the
target (with a positive exposure step) `setExposure` returns true with `reached`
equal to that exposure and leaves the node, its log included, unchanged: no
hardware write is issued and the loop is left in its first iteration; (2) if
the reported exposure differs from the target, by however little, `setExposure`
issues the hardware write before it enters its poll loop: the loop starts from
the node with the write logged, every return of the call has logged exactly
that one write, and when the camera then reports a value within the step the
call returns true in the first iteration. -/
theorem setExposure_idempotent (env : Env σ) (fuel : Nat) (target_exposure reached0 : ℚ)
    (w : Node σ) (hready : env.isReady w.hw = true) :
    (env.currentExposure w.hw = target_exposure → 0 < env.exposureStep w.hw →
      setExposure env (fuel + 1) target_exposure reached0 w
        = .ok ⟨true, env.currentExposure w.hw, w⟩) ∧
    (env.currentExposure w.hw ≠ target_exposure →
      setExposureEntry env target_exposure w
        = w.emit (Call.camSetExposure target_exposure)
            (env.setExposure target_exposure w.hw) ∧
      setExposure env fuel target_exposure reached0 w
        = setExposureLoop env target_exposure
            (env.now (env.setExposure target_exposure w.hw)) fuel (env.currentExposure w.hw)
            (w.emit (Call.camSetExposure target_exposure)
              (env.setExposure target_exposure w.hw)) ∧
      (∀ r, setExposure env fuel target_exposure reached0 w = .ok r →
        r.node.log = w.log ++ [Call.camSetExposure target_exposure]) ∧
      (env.ok (env.setExposure target_exposure w.hw) = true →
        |env.currentExposure (env.setExposure target_exposure w.hw) - target_exposure|
          < env.exposureStep (env.setExposure target_exposure w.hw) →
        setExposure env (fuel + 1) target_exposure reached0 w
          = .ok ⟨true, env.currentExposure (env.setExposure target_exposure w.hw),
              w.emit (Call.camSetExposure target_exposure)
                (env.setExposure target_exposure w.hw)⟩)) := by
  constructor
  · intro heq hstep
    cases hok : env.ok w.hw <;>
      simp [setExposure, setExposureEntry, setExposureLoop, hready, heq, hstep, hok]
  · intro hne
    have hentry : setExposureEntry env target_exposure w
        = w.emit (Call.camSetExposure target_exposure)
            (env.setExposure target_exposure w.hw) := by
      simp only [setExposureEntry, hne, ne_eq, not_false_eq_true, if_true]
    have hcall : setExposure env fuel target_exposure reached0 w
        = setExposureLoop env target_exposure
            (env.now (env.setExposure target_exposure w.hw)) fuel (env.currentExposure w.hw)
            (w.emit (Call.camSetExposure target_exposure)
              (env.setExposure target_exposure w.hw)) := by
      simp only [setExposure, hready, Bool.true_eq_false, if_false, hentry]
      rfl
    refine ⟨hentry, hcall, ?_, ?_⟩
    · intro r hr
      rw [hcall] at hr
      rw [setExposureLoop_log env target_exposure _ fuel _ _ r hr]
      rfl
    · intro hok hin
      simp only [setExposure, hready, Bool.true_eq_false, if_false, hentry]
      simp only [setExposureLoop, Node.emit, hok, hin, if_true]

/-- The amended C4 on the scripted stand-in: a ready camera reporting exposure
100 is left alone for the target 100, and one reporting 201/2 (within the step
1 of the target 100) is written to. -/
theorem setExposure_idempotent_witness :
    (mockEnv ⟨100, 1 / 2, 1, 1, 1⟩).isReady ⟨0, true, true, false, []⟩ = true ∧
    (mockEnv ⟨100, 1 / 2, 1, 1, 1⟩).currentExposure ⟨0, true, true, false, []⟩ = 100 ∧
    setExposure (mockEnv ⟨100, 1 / 2, 1, 1, 1⟩) (0 + 1) 100 0
        ⟨⟨0, true, true, false, []⟩, [], false, []⟩
      = .ok ⟨true, 100, ⟨⟨0, true, true, false, []⟩, [], false, []⟩⟩ ∧
    (mockEnv ⟨201 / 2, 1 / 2, 1, 1, 1⟩).currentExposure ⟨0, true, true, false, []⟩ ≠ 100 ∧
    setExposure (mockEnv ⟨201 / 2, 1 / 2, 1, 1, 1⟩) (0 + 1) 100 0
        ⟨⟨0, true, true, false, []⟩, [], false, []⟩
      = .ok ⟨true, 201 / 2,
          ⟨⟨0, true, true, false, []⟩, [], false, [Call.camSetExposure 100]⟩⟩ := by
  have hne : (mockEnv ⟨201 / 2, 1 / 2, 1, 1, 1⟩).currentExposure ⟨0, true, true, false, []⟩
      ≠ 100 := by
    norm_num [mockEnv]
  refine ⟨rfl, rfl, ?_, hne, ?_⟩
  · exact (setExposure_idempotent (mockEnv ⟨100, 1 / 2, 1, 1, 1⟩) 0 100 0
      ⟨⟨0, true, true, false, []⟩, [], false, []⟩ rfl).1 rfl (by norm_num [mockEnv])
  · exact ((setExposure_idempotent (mockEnv ⟨201 / 2, 1 / 2, 1, 1, 1⟩) 0 100 0
      ⟨⟨0, true, true, false, []⟩, [], false, []⟩ rfl).2 hne).2.2.2 rfl
        (by norm_num [mockEnv, abs_lt])

/-- C8: with the shutdown signal already raised, `setExposure` and `setGain`
return true with a reached value (50, resp. 1/4) that is not within tolerance
of the target (100 with step 1, resp. 1/2). -/
theorem setExposure_setGain_true_on_shutdown :
    (setExposure (mockEnv ⟨50, 1 / 4, 1, 1, 1⟩) 1 100 0
        ⟨⟨0, false, true, false, []⟩, [], false, []⟩
      = .ok ⟨true, 50, ⟨⟨0, false, true, false, []⟩, [], false, [Call.camSetExposure 100]⟩⟩ ∧
      ¬ (|(50 : ℚ) - 100| < 1)) ∧
    (setGain (mockEnv ⟨50, 1 / 4, 1, 1, 1⟩) 1 (1 / 2) 0
        ⟨⟨0, false, true, false, []⟩, [], false, []⟩
      = .ok ⟨true, 1 / 4, ⟨⟨0, false, true, false, []⟩, [], false, [Call.camSetGain (1 / 2)]⟩⟩ ∧
      ¬ (|(1 / 4 : ℚ) - 1 / 2| < 1 / 100)) := by
  refine ⟨⟨?_, ?_⟩, ⟨?_, ?_⟩⟩
  · norm_num [setExposure, setExposureEntry, setExposureLoop, mockEnv, Node.emit]
  · norm_num [abs_lt]
  · norm_num [setGain, setGainEntry, setGainLoop, mockEnv, Node.emit]
  · norm_num [abs_lt]

/-- Stall exit, generalised over the counter: `n ≥ 1` stalled polls that push the
counter above 5 end the loop within `n` iterations, unsuccessfully. -/
theorem setBrightnessLoop_stalled_aux (env : Env σ) (target_brightness timeout : Int)
    (start : Nat) :
    ∀ (n ctr : Nat) (last cur : ℚ) (w : Node σ),
      stalledFor env target_brightness n last cur w = true → 0 < n → 5 < ctr + n →
      ∃ r, setBrightnessLoop env target_brightness timeout start n ctr last cur w = .ok r ∧
        r.is_brightness_reached = false := by
  intro n
  induction n with
  | zero => intro ctr last cur w _ h0; exact absurd h0 (lt_irrefl 0)
  | succ n ih =>
    intro ctr last cur w hst _ hctr
    unfold setBrightnessLoop
    cases hok : env.ok w.hw
    · simp only [Bool.false_eq_true, if_false]
      exact ⟨_, rfl, rfl⟩
    · unfold stalledFor at hst
      simp only [if_true]
      cases hc : calcCurrentBrightness
          (brightnessStep env target_brightness cur w).img_raw_msg_data with
      | none => simp [hc] at hst
      | some m =>
        simp only [hc, Bool.and_eq_true, Bool.not_eq_true', decide_eq_false_iff_not,
          decide_eq_true_eq] at hst
        obtain ⟨⟨htol, hlast⟩, hrest⟩ := hst
        simp only [htol, if_false, hlast, if_true]
        by_cases hto : timeout <
            (env.now (brightnessStep env target_brightness cur w).hw : Int) - (start : Int)
        · simp only [hto, if_true]
          exact ⟨_, rfl, rfl⟩
        · simp only [hto, if_false]
          by_cases h5 : 5 < ctr + 1
          · simp only [h5, if_true]
            exact ⟨_, rfl, rfl⟩
          · simp only [h5, if_false]
            exact ih (ctr + 1) m m _ hrest (by omega) (by omega)

/-- C6: from any state of the poll loop of `setBrightness` (any counter value,
any timeout), if the next six polls each measure a brightness that is not
within tolerance of the target and within 1.0 of the preceding measurement,
the loop ends within those six iterations and reports failure. -/
theorem setBrightnessLoop_stall_exit (env : Env σ) (target_brightness timeout : Int)
    (start fail_safe_ctr : Nat) (last_brightness current_brightness : ℚ) (w : Node σ)
    (hstall : stalledFor env target_brightness 6 last_brightness current_brightness w = true) :
    ∃ r, setBrightnessLoop env target_brightness timeout start 6 fail_safe_ctr
        last_brightness current_brightness w = .ok r ∧
      r.is_brightness_reached = false :=
  setBrightnessLoop_stalled_aux env target_brightness timeout start 6 fail_safe_ctr
    last_brightness current_brightness w hstall (by omega) (by omega)

/-- The poll loop of `setGain` returns once the fuel covers the time left until
the timeout; it leaves the log untouched. -/
theorem setGainLoop_returns (env : Env σ) (hpos : ∀ s, env.now s < env.now (env.rateSleep s))
    (target : ℚ) (start : Nat) :
    ∀ (fuel : Nat) (reached : ℚ) (w : Node σ),
      start + 5000000002 - env.now w.hw ≤ fuel → 1 ≤ fuel →
      ∃ r, setGainLoop env target start fuel reached w = .ok r ∧ r.node.log = w.log := by
  intro fuel
  induction fuel with
  | zero => intro _ _ _ h1; omega
  | succ fuel ih =>
    intro reached w hm _
    unfold setGainLoop
    cases hok : env.ok w.hw
    · simp only [Bool.false_eq_true, if_false]
      exact ⟨_, rfl, rfl⟩
    · simp only [if_true]
      by_cases hs : |env.currentGain w.hw - target| < 1 / 100
      · simp only [hs, if_true]
        exact ⟨_, rfl, rfl⟩
      · simp only [hs, if_false]
        by_cases ht : fiveSeconds < (env.now w.hw : Int) - (start : Int)
        · simp only [ht, if_true]
          exact ⟨_, rfl, rfl⟩
        · simp only [ht, if_false]
          have h1 := hpos w.hw
          unfold fiveSeconds at ht
          have := ih (env.currentGain w.hw) (w.move (env.rateSleep w.hw))
            (by simp only [Node.move]; omega) (by omega)
          simpa [Node.move] using this

/-- Without a shutdown signal and with a camera that never reports a gain
within 0.01 of the target, a return of the poll loop of `setGain` is a failure,
at most `P` past the timeout. -/
theorem setGainLoop_false (env : Env σ) (P : Nat) (hok : ∀ s, env.ok s = true)
    (hle : ∀ s, env.now (env.rateSleep s) ≤ env.now s + P)
    (target : ℚ) (hnever : ∀ s, ¬ |env.currentGain s - target| < 1 / 100)
    (start : Nat) :
    ∀ (fuel : Nat) (reached : ℚ) (w : Node σ) (r : Ret ℚ σ),
      (env.now w.hw : Int) ≤ start + fiveSeconds + P →
      setGainLoop env target start fuel reached w = .ok r →
      r.ret = false ∧ (env.now r.node.hw : Int) ≤ start + fiveSeconds + P := by
  intro fuel
  induction fuel with
  | zero => intro _ _ _ _ h; simp [setGainLoop] at h
  | succ fuel ih =>
    intro reached w r hinv h
    unfold setGainLoop at h
    simp only [hok, if_true, hnever, if_false] at h
    by_cases ht : fiveSeconds < (env.now w.hw : Int) - (start : Int)
    · simp only [ht, if_true, Except.ok.injEq] at h
      subst h
      exact ⟨rfl, hinv⟩
    · simp only [ht, if_false] at h
      refine ih _ _ r ?_ h
      have h1 := hle w.hw
      simp only [Node.move]
      omega

/-- The log written by `setExposureEntry`. -/
theorem setExposureEntry_log (env : Env σ) (target : ℚ) (w : Node σ) :
    ∃ inner, (setExposureEntry env target w).log = w.log ++ inner ∧
      ∀ c ∈ inner, Call.isInner c = true := by
  unfold setExposureEntry
  split
  · exact ⟨[Call.camSetExposure target], rfl, by simp [Call.isInner]⟩
  · exact ⟨[], by simp, by simp⟩

/-- Under the progress assumptions `setExposure` returns, having logged only
commands of a convergence call. -/
theorem setExposure_returns (env : Env σ) (hlive : Live env) (fuel : Nat)
    (hfuel : pollFuel ≤ fuel) (target reached0 : ℚ) (w : Node σ) :
    ∃ r inner, setExposure env fuel target reached0 w = .ok r ∧
      r.node.log = w.log ++ inner ∧ ∀ c ∈ inner, Call.isInner c = true := by
  unfold setExposure
  cases hr : env.isReady w.hw
  · simp only [if_true]
    exact ⟨_, [], rfl, by simp, by simp⟩
  · simp only [Bool.true_eq_false, if_false]
    obtain ⟨inner, hlog, hinner⟩ := setExposureEntry_log env target w
    unfold pollFuel at hfuel
    obtain ⟨r, hr1, hr2⟩ := setExposureLoop_returns env hlive.rateSleep_pos target
      (env.now (setExposureEntry env target w).hw) fuel (env.currentExposure w.hw)
      (setExposureEntry env target w) (by omega) (by omega)
    exact ⟨r, inner, hr1, by rw [hr2, hlog], hinner⟩

/-- Under the progress assumptions `setBrightness` returns, having logged only
commands of a convergence call. -/
theorem setBrightness_returns (env : Env σ) (hlive : Live env) (fuel : Nat)
    (hfuel : pollFuel ≤ fuel) (target reached0 : Int) (w : Node σ) :
    ∃ r inner, setBrightness env fuel target reached0 w = .ok r ∧
      r.node.log = w.log ++ inner ∧ ∀ c ∈ inner, Call.isInner c = true := by
  unfold pollFuel at hfuel
  obtain ⟨b, w1, hw1, hlog1⟩ := waitForCameraLoop_returns env hlive.durationSleep_pos
    (env.now w.hw) fuel w (by omega) (by omega)
  unfold setBrightness waitForCamera
  rw [hw1]
  cases b
  · exact ⟨_, [], rfl, by simp [hlog1], by simp⟩
  · simp only
    obtain ⟨inner, hlog, hinner⟩ := grabImage_log env w1
    cases hg : (grabImage env w1).1
    · simp only [if_true]
      exact ⟨_, inner, rfl, by rw [hlog, hlog1], hinner⟩
    · simp only [Bool.true_eq_false, if_false]
      have hdata : (grabImage env w1).2.img_raw_msg_data ≠ [] := by
        rw [grabImage_data]
        exact hlive.frame_nonempty _ _ (Or.inl (by rw [← grabImage_fst]; exact hg))
      obtain ⟨m, hm⟩ := calcCurrentBrightness_isSome (grabImage env w1).2.img_raw_msg_data
        hdata
      simp only [hm]
      by_cases hs : |m - (target : ℚ)| ≤ 1
      · simp only [hs, if_true]
        exact ⟨_, inner, rfl, by rw [hlog, hlog1], hinner⟩
      · simp only [hs, if_false]
        obtain ⟨T, hT, hT15⟩ : ∃ T : Nat, brightnessTimeout target = (T : Int) ∧
            T ≤ 15000000000 := by
          unfold brightnessTimeout fifteenSeconds fiveSeconds
          split
          · exact ⟨15000000000, rfl, le_refl _⟩
          · exact ⟨5000000000, rfl, by omega⟩
        obtain ⟨r, inner2, hr, hlog2, hinner2⟩ := setBrightnessLoop_returns env hlive target T
          (env.now (grabImage env w1).2.hw) fuel 0 FLT_MAX m (grabImage env w1).2
          hdata (by omega) (by omega)
        rw [hT, hr]
        refine ⟨_, inner ++ inner2, rfl, ?_, ?_⟩
        · simp only [hlog2, hlog, hlog1, List.append_assoc]
        · intro c hc
          rcases List.mem_append.1 hc with hc | hc
          · exact hinner c hc
          · exact hinner2 c hc

/-! ## The batch loop -/

/-- The convergence call of a batch item returns under the progress
assumptions; it writes its brackets around commands of a convergence call and
stores the reached value at index `i`. -/
theorem batchConverge_spec (env : Env σ) (hlive : Live env) (fuel : Nat)
    (hfuel : pollFuel ≤ fuel) (goal : GrabImagesGoal) (i : Nat) (result : GrabImagesResult)
    (w : Node σ) :
    ∃ result1 w1 inner v, batchConverge env fuel goal i result w = .ok (result1, w1) ∧
      w1.log = w.log ++ (if goal.target_type = TargetType.other then []
        else Call.convergeBegin i :: (inner ++ [Call.convergeEnd i v])) ∧
      (∀ c ∈ inner, Call.isInner c = true) ∧
      result1.images = result.images ∧ result1.success = result.success ∧
      result1.reached_values = (if goal.target_type = TargetType.other then result.reached_values
        else result.reached_values.set i v) := by
  unfold batchConverge
  cases htt : goal.target_type
  · obtain ⟨r, inner, hr, hlog, hinner⟩ := setExposure_returns env hlive fuel hfuel
      (goal.target_values.getD i 0) (result.reached_values.getD i 0)
      (w.emit (Call.convergeBegin i) w.hw)
    simp only [hr]
    refine ⟨_, _, inner, r.reached, rfl, ?_, hinner, rfl, rfl, ?_⟩
    · simp [Node.emit, hlog]
    · simp
  · obtain ⟨r, inner, hr, hlog, hinner⟩ := setBrightness_returns env hlive fuel hfuel
      (truncToInt (goal.target_values.getD i 0)) (env.indeterminate w.hw)
      (w.emit (Call.convergeBegin i) w.hw)
    simp only [hr]
    refine ⟨_, _, inner, (r.reached : ℚ), rfl, ?_, hinner, rfl, rfl, ?_⟩
    · simp [Node.emit, hlog]
    · simp
  · exact ⟨result, w, [], 0, rfl, by simp, by simp, rfl, rfl, by simp⟩

/-- The batch loop returns under the progress assumptions; its log is the trace
of the items it ran, every remaining target is run, the success flag is the
conjunction of the grab flags, and the reached values are those of the
convergence calls. -/
theorem batchLoop_spec (env : Env σ) (hlive : Live env) (fuel : Nat)
    (hfuel : pollFuel ≤ fuel) (goal : GrabImagesGoal) :
    ∀ (n i : Nat) (result : GrabImagesResult) (w : Node σ),
      i + n ≤ result.reached_values.length →
      ∃ result1 w1 items, batchLoop env fuel goal n i result w = .ok (result1, w1) ∧
        items.length = n ∧
        w1.log = w.log ++ batchTrace goal.target_type i items ∧
        (∀ it ∈ items, ∀ c ∈ it.inner, Call.isInner c = true) ∧
        result1.success = (result.success && items.all (fun it => it.ok)) ∧
        result1.images.length = result.images.length ∧
        result1.reached_values.length = result.reached_values.length ∧
        (goal.target_type ≠ TargetType.other → ∀ k it, items[k]? = some it →
          result1.reached_values[i + k]? = some it.reached) ∧
        (∀ j, j < i → result1.reached_values[j]? = result.reached_values[j]?) ∧
        (goal.target_type = TargetType.other →
          result1.reached_values = result.reached_values) := by
  intro n
  induction n with
  | zero =>
    intro i result w _
    exact ⟨result, w, [], rfl, rfl, by simp [batchTrace], by simp, by simp, rfl, rfl,
      by simp, fun _ _ => rfl, fun _ => rfl⟩
  | succ n ih =>
    intro i result w hlen
    obtain ⟨result1, w1, inner, v, hconv, hlog1, hinner, himg1, hsucc1, hreach1⟩ :=
      batchConverge_spec env hlive fuel hfuel goal i result w
    have hlen1 : result1.reached_values.length = result.reached_values.length := by
      rw [hreach1]; split <;> simp
    obtain ⟨result2, w2, items, hloop, hitems, hlog2, hinner2, hsucc2, himg2, hreach2,
      hval2, hpre2, hoth2⟩ := ih (i + 1)
        ⟨result1.images.set i (env.grab (result1.images.getD i []) w1.hw).2.1,
          result1.reached_values,
          if (env.grab (result1.images.getD i []) w1.hw).1 = false then false
          else result1.success⟩
        ⟨(env.grab (result1.images.getD i []) w1.hw).2.2, w1.img_raw_msg_data,
          w1.is_sleeping_,
          w1.log ++ [Call.grab (Dest.resultImage i)
            (env.grab (result1.images.getD i []) w1.hw).1, Call.publishFeedback (i + 1)]⟩
        (by simp only [hlen1]; omega)
    refine ⟨result2, w2,
      ⟨inner, v, (env.grab (result1.images.getD i []) w1.hw).1⟩ :: items, ?_, ?_, ?_, ?_, ?_,
      ?_, ?_, ?_, ?_, ?_⟩
    · unfold batchLoop
      simp only [hconv]
      exact hloop
    · simp [hitems]
    · rw [hlog2]
      simp only [hlog1, batchTrace, itemTrace, List.append_assoc]
    · intro it hit c hc
      rcases List.mem_cons.1 hit with rfl | hit
      · exact hinner c hc
      · exact hinner2 it hit c hc
    · rw [hsucc2]
      simp only [List.all_cons, hsucc1]
      cases (env.grab (result1.images.getD i []) w1.hw).1 <;> cases result.success <;> simp
    · rw [himg2]
      simp [himg1]
    · rw [hreach2]
      exact hlen1
    · intro htt k it hk
      cases k with
      | zero =>
        simp only [List.getElem?_cons_zero, Option.some.injEq] at hk
        subst hk
        rw [Nat.add_zero, hpre2 i (Nat.lt_succ_self i)]
        simp only [hreach1, htt, if_false]
        exact List.getElem?_set_self (by omega)
      | succ k =>
        simp only [List.getElem?_cons_succ] at hk
        have := hval2 htt k it hk
        rw [show i + (k + 1) = i + 1 + k by omega]
        exact this
    · intro j hj
      rw [hpre2 j (by omega)]
      simp only [hreach1]
      split
      · rfl
      · exact List.getElem?_set_ne (by omega)
    · intro htt
      rw [hoth2 htt]
      simp only [hreach1, htt, if_true]

/-- The callback returns under the progress assumptions; its log is the trace
of one item per target. -/
theorem callback_spec (env : Env σ) (hlive : Live env) (fuel : Nat)
    (hfuel : pollFuel ≤ fuel) (goal : GrabImagesGoal) (w : Node σ) :
    ∃ result w1 items, grabImagesRawActionExecuteCB env fuel goal w = .ok (result, w1) ∧
      items.length = goal.target_values.length ∧
      w1.log = w.log ++ batchTrace goal.target_type 0 items ∧
      (∀ it ∈ items, ∀ c ∈ it.inner, Call.isInner c = true) ∧
      result.success = items.all (fun it => it.ok) ∧
      (result.success = true → result.images.length = goal.target_values.length) ∧
      (result.success = false → result.images = []) ∧
      result.reached_values.length = goal.target_values.length ∧
      (goal.target_type ≠ TargetType.other → ∀ (k : Nat) (it : ItemRun), items[k]? = some it →
        result.reached_values[k]? = some it.reached) := by
  obtain ⟨result1, w1, items, hloop, hitems, hlog, hinner, hsucc, himg, hreach, hval, _, _⟩ :=
    batchLoop_spec env hlive fuel hfuel goal goal.target_values.length 0
      ⟨List.replicate goal.target_values.length [], List.replicate goal.target_values.length 0,
        true⟩ w (by simp)
  simp only [Bool.true_and, List.length_replicate] at hsucc himg hreach
  have hval0 : goal.target_type ≠ TargetType.other → ∀ (k : Nat) (it : ItemRun),
      items[k]? = some it → result1.reached_values[k]? = some it.reached := by
    intro htt k it hk
    have := hval htt k it hk
    rwa [Nat.zero_add] at this
  unfold grabImagesRawActionExecuteCB
  simp only [hloop]
  cases hs : result1.success
  · simp only [if_true]
    exact ⟨_, _, items, rfl, hitems, hlog, hinner, by rw [← hsucc, hs], by simp, fun _ => rfl,
      hreach, hval0⟩
  · simp only [Bool.true_eq_false, if_false]
    exact ⟨_, _, items, rfl, hitems, hlog, hinner, hsucc, fun _ => himg, by simp [hs],
      hreach, hval0⟩

/-- Every command of the `k`-th item of a trace is in the trace. -/
theorem mem_batchTrace (tt : TargetType) :
    ∀ (items : List ItemRun) (i k : Nat) (it : ItemRun), items[k]? = some it →
      ∀ c ∈ itemTrace tt (i + k) it, c ∈ batchTrace tt i items := by
  intro items
  induction items with
  | nil => intro i k it h; simp at h
  | cons a rest ih =>
    intro i k it h c hc
    cases k with
    | zero =>
      simp only [List.getElem?_cons_zero, Option.some.injEq] at h
      subst h
      simp only [batchTrace, List.mem_append]
      left
      simpa using hc
    | succ k =>
      simp only [List.getElem?_cons_succ] at h
      simp only [batchTrace, List.mem_append]
      right
      refine ih (i + 1) k it h c ?_
      rwa [show i + 1 + k = i + (k + 1) by omega]

/-- A trace splits at each of its items. -/
theorem batchTrace_split (tt : TargetType) :
    ∀ (items : List ItemRun) (i k : Nat) (it : ItemRun), items[k]? = some it →
      batchTrace tt i items = batchTrace tt i (items.take k) ++ itemTrace tt (i + k) it
        ++ batchTrace tt (i + k + 1) (items.drop (k + 1)) := by
  intro items
  induction items with
  | nil => intro i k it h; simp at h
  | cons a rest ih =>
    intro i k it h
    cases k with
    | zero =>
      simp only [List.getElem?_cons_zero, Option.some.injEq] at h
      subst h
      simp [batchTrace]
    | succ k =>
      simp only [List.getElem?_cons_succ] at h
      have := ih (i + 1) k it h
      simp only [List.take_succ_cons, List.drop_succ_cons, batchTrace, List.append_assoc]
      rw [this, show i + 1 + k = i + (k + 1) by omega]
      simp only [List.append_assoc]

/-- In a trace whose convergence calls log only their own commands, the grab of
a result image, the feedback and the brackets carry the index of their item. -/
theorem batchTrace_index (tt : TargetType) :
    ∀ (items : List ItemRun) (i : Nat),
      (∀ it ∈ items, ∀ c ∈ it.inner, Call.isInner c = true) →
      ∀ c ∈ batchTrace tt i items, ∀ j,
        ((∃ b, c = Call.grab (Dest.resultImage j) b) ∨ c = Call.publishFeedback (j + 1) ∨
          c = Call.convergeBegin j ∨ (∃ v, c = Call.convergeEnd j v)) →
        i ≤ j ∧ j < i + items.length := by
  intro items
  induction items with
  | nil => intro i _ c hc; simp [batchTrace] at hc
  | cons a rest ih =>
    intro i hinner c hc j hj
    simp only [batchTrace, List.mem_append] at hc
    rcases hc with hc | hc
    · have hin : ∀ c ∈ a.inner, Call.isInner c = true := hinner a (List.mem_cons_self _ _)
      have key : c ∈ a.inner ∨ c = Call.convergeBegin i ∨ c = Call.convergeEnd i a.reached ∨
          c = Call.grab (Dest.resultImage i) a.ok ∨ c = Call.publishFeedback (i + 1) := by
        unfold itemTrace at hc
        split at hc
        · simp at hc
          tauto
        · simp at hc
          tauto
      simp only [List.length_cons]
      rcases key with h | h | h | h | h
      · have := hin c h
        rcases hj with ⟨b, rfl⟩ | rfl | rfl | ⟨v, rfl⟩ <;> simp [Call.isInner] at this
      · subst h
        rcases hj with ⟨b, hb⟩ | hb | hb | ⟨v, hb⟩ <;> simp at hb
        omega
      · subst h
        rcases hj with ⟨b, hb⟩ | hb | hb | ⟨v, hb⟩ <;> simp at hb
        omega
      · subst h
        rcases hj with ⟨b, hb⟩ | hb | hb | ⟨v, hb⟩ <;> simp at hb
        omega
      · subst h
        rcases hj with ⟨b, hb⟩ | hb | hb | ⟨v, hb⟩ <;> simp at hb
        omega
    · have := ih (i + 1) (fun it hit => hinner it (List.mem_cons_of_mem _ hit)) c hc j hj
      simp only [List.length_cons]
      omega

/-- The scripted stand-in satisfies the progress assumptions. -/
theorem mockEnv_live (c : MockCfg) : Live (mockEnv c) := by
  refine ⟨?_, ?_, ?_, ?_⟩
  · intro s
    simp [mockEnv, Mock.tick]
  · intro s
    simp [mockEnv, Mock.tick]
  · intro t cur w
    cases hg : w.hw.grabs with
    | nil =>
      cases hr : w.hw.removed <;>
        simp [brightnessStep, grabImage, mockEnv, Node.emit, hg, hr]
    | cons g rest =>
      cases hg1 : g.1 <;> cases hr : w.hw.removed <;>
        simp [brightnessStep, grabImage, mockEnv, Node.emit, hg, hr, hg1]
  · intro buf s _
    cases hg : s.grabs <;> simp [mockEnv, hg]

/-- C2 fails as stated: in a batch of two exposure targets whose first grab
fails, the second target still gets its convergence call, its grab and its
progress notification. -/
theorem batch_continues_after_failed_grab :
    grabImagesRawActionExecuteCB (mockEnv ⟨100, 1 / 2, 1, 1, 1⟩) 1
        ⟨TargetType.EXPOSURE, [100, 100]⟩
        ⟨⟨0, true, true, false, [(false, 7, []), (true, 9, [])]⟩, [], false, []⟩
      = .ok (⟨[], [100, 100], false⟩,
          ⟨⟨200000000, true, true, false, []⟩, [], false,
            [Call.convergeBegin 0, Call.convergeEnd 0 100,
              Call.grab (Dest.resultImage 0) false, Call.publishFeedback 1,
              Call.convergeBegin 1, Call.convergeEnd 1 100,
              Call.grab (Dest.resultImage 1) true, Call.publishFeedback 2]⟩) := by
  norm_num [grabImagesRawActionExecuteCB, batchLoop, batchConverge, setExposure,
    setExposureEntry, setExposureLoop, mockEnv, Node.emit, List.replicate]

/-- C2 as amended: a failed grab does not end the batch loop. Whatever the
grabs return, every target gets its grab and its progress notification, and
(for exposure and brightness batches) its convergence call. -/
theorem batch_runs_every_target (env : Env σ) (hlive : Live env) (fuel : Nat)
    (hfuel : pollFuel ≤ fuel) (goal : GrabImagesGoal) (w : Node σ) :
    ∃ result w1 ev, grabImagesRawActionExecuteCB env fuel goal w = .ok (result, w1) ∧
      w1.log = w.log ++ ev ∧
      ∀ j, j < goal.target_values.length →
        (∃ b, Call.grab (Dest.resultImage j) b ∈ ev) ∧
        Call.publishFeedback (j + 1) ∈ ev ∧
        (goal.target_type ≠ TargetType.other →
          Call.convergeBegin j ∈ ev ∧ ∃ v, Call.convergeEnd j v ∈ ev) := by
  obtain ⟨result, w1, items, hcb, hlen, hlog, _, _, _, _, _, _⟩ :=
    callback_spec env hlive fuel hfuel goal w
  refine ⟨result, w1, batchTrace goal.target_type 0 items, hcb, hlog, ?_⟩
  intro j hj
  have hj2 : j < items.length := by omega
  have hget : items[j]? = some items[j] := List.getElem?_eq_getElem hj2
  have hmem := mem_batchTrace goal.target_type items 0 j items[j] hget
  rw [Nat.zero_add] at hmem
  refine ⟨⟨items[j].ok, hmem _ (by simp [itemTrace])⟩, hmem _ (by simp [itemTrace]), ?_⟩
  intro htt
  exact ⟨hmem _ (by simp [itemTrace, htt]),
    items[j].reached, hmem _ (by simp [itemTrace, htt])⟩

/-- The premises of the amended C2 hold for the scripted stand-in. -/
theorem batch_runs_every_target_witness :
    Live (mockEnv ⟨100, 1 / 2, 1, 1, 1⟩) ∧ pollFuel ≤ pollFuel + 1 ∧
    ∃ result w1 ev,
      grabImagesRawActionExecuteCB (mockEnv ⟨100, 1 / 2, 1, 1, 1⟩) (pollFuel + 1)
          ⟨TargetType.EXPOSURE, [100, 100]⟩
          ⟨⟨0, true, true, false, [(false, 7, []), (true, 9, [])]⟩, [], false, []⟩
        = .ok (result, w1) ∧
      w1.log = [] ++ ev ∧
      ∀ j, j < 2 →
        (∃ b, Call.grab (Dest.resultImage j) b ∈ ev) ∧
        Call.publishFeedback (j + 1) ∈ ev ∧
        (TargetType.EXPOSURE ≠ TargetType.other →
          Call.convergeBegin j ∈ ev ∧ ∃ v, Call.convergeEnd j v ∈ ev) :=
  ⟨mockEnv_live _, Nat.le_succ _,
    batch_runs_every_target (mockEnv ⟨100, 1 / 2, 1, 1, 1⟩) (mockEnv_live _) (pollFuel + 1)
      (Nat.le_succ _) ⟨TargetType.EXPOSURE, [100, 100]⟩
      ⟨⟨0, true, true, false, [(false, 7, []), (true, 9, [])]⟩, [], false, []⟩⟩

/-- C11: the log of the callback is the trace of one item per target, and for
every item `k` it splits into the commands before the item, the commands of
the item in the order convergence call (bracketed by `convergeBegin k` and
`convergeEnd k`), grab into `result.images[k].data`, feedback `k + 1`, and the
commands after the item; what comes before belongs to earlier items and what
comes after (beginning with the convergence call of item `k + 1`) to later
items. -/
theorem batch_trace_order (env : Env σ) (hlive : Live env) (fuel : Nat)
    (hfuel : pollFuel ≤ fuel) (goal : GrabImagesGoal) (w : Node σ) :
    ∃ (result : GrabImagesResult) (w1 : Node σ) (items : List ItemRun),
      grabImagesRawActionExecuteCB env fuel goal w = .ok (result, w1) ∧
      items.length = goal.target_values.length ∧
      (∀ it ∈ items, ∀ c ∈ it.inner, Call.isInner c = true) ∧
      ∀ (k : Nat) (it : ItemRun), items[k]? = some it →
        w1.log = w.log ++ (batchTrace goal.target_type 0 (items.take k)
          ++ itemTrace goal.target_type k it
          ++ batchTrace goal.target_type (k + 1) (items.drop (k + 1))) ∧
        (∀ c ∈ batchTrace goal.target_type 0 (items.take k), ∀ j, Call.ofItem j c → j < k) ∧
        (∀ c ∈ batchTrace goal.target_type (k + 1) (items.drop (k + 1)), ∀ j,
          Call.ofItem j c → k < j) := by
  obtain ⟨result, w1, items, hcb, hlen, hlog, hinner, _, _, _, _, _⟩ :=
    callback_spec env hlive fuel hfuel goal w
  refine ⟨result, w1, items, hcb, hlen, hinner, ?_⟩
  intro k it hk
  have hsplit := batchTrace_split goal.target_type items 0 k it hk
  simp only [Nat.zero_add] at hsplit
  refine ⟨by rw [hlog, hsplit], ?_, ?_⟩
  · intro c hc j hj
    have := batchTrace_index goal.target_type (items.take k) 0
      (fun it hit => hinner it (List.mem_of_mem_take hit)) c hc j hj
    have hl : (items.take k).length ≤ k := by simp
    omega
  · intro c hc j hj
    have := batchTrace_index goal.target_type (items.drop (k + 1)) (k + 1)
      (fun it hit => hinner it (List.mem_of_mem_drop hit)) c hc j hj
    omega

/-- The premises of C11 hold for the scripted stand-in. -/
theorem batch_trace_order_witness :
    Live (mockEnv ⟨100, 1 / 2, 1, 5 / 2, 1⟩) ∧ pollFuel ≤ pollFuel + 3 ∧
    ∃ (result : GrabImagesResult) (w1 : Node Mock) (items : List ItemRun),
      grabImagesRawActionExecuteCB (mockEnv ⟨100, 1 / 2, 1, 5 / 2, 1⟩) (pollFuel + 3)
          ⟨TargetType.BRIGHTNESS, [100, 150, 200]⟩
          ⟨⟨0, true, true, false, []⟩, [], false, []⟩
        = .ok (result, w1) ∧
      items.length = 3 ∧
      (∀ it ∈ items, ∀ c ∈ it.inner, Call.isInner c = true) ∧
      ∀ (k : Nat) (it : ItemRun), items[k]? = some it →
        w1.log = [] ++ (batchTrace TargetType.BRIGHTNESS 0 (items.take k)
          ++ itemTrace TargetType.BRIGHTNESS k it
          ++ batchTrace TargetType.BRIGHTNESS (k + 1) (items.drop (k + 1))) ∧
        (∀ c ∈ batchTrace TargetType.BRIGHTNESS 0 (items.take k), ∀ j,
          Call.ofItem j c → j < k) ∧
        (∀ c ∈ batchTrace TargetType.BRIGHTNESS (k + 1) (items.drop (k + 1)), ∀ j,
          Call.ofItem j c → k < j) :=
  ⟨mockEnv_live _, Nat.le_add_right _ _,
    batch_trace_order (mockEnv ⟨100, 1 / 2, 1, 5 / 2, 1⟩) (mockEnv_live _) (pollFuel + 3)
      (Nat.le_add_right _ _) ⟨TargetType.BRIGHTNESS, [100, 150, 200]⟩
      ⟨⟨0, true, true, false, []⟩, [], false, []⟩⟩

/-! ## Timeout bound of the convergence calls -/

/-- Timeout bound of `setExposure`. -/
theorem setExposure_times_out (env : Env σ) (P : Nat) (hlive : Live env)
    (hwithin : PollWithin env P) (hok : ∀ s, env.ok s = true) (target : ℚ)
    (hnever : ∀ s, ¬ |env.currentExposure s - target| < env.exposureStep s)
    (fuel : Nat) (hfuel : pollFuel ≤ fuel) (reached0 : ℚ) (w : Node σ) :
    ∃ r, setExposure env fuel target reached0 w = .ok r ∧ r.ret = false ∧
      (env.isReady w.hw = true →
        (env.now r.node.hw : Int)
          ≤ (env.now (setExposureEntry env target w).hw : Int) + fiveSeconds + P) := by
  unfold setExposure
  cases hr : env.isReady w.hw
  · simp only [if_true]
    exact ⟨_, rfl, rfl, fun h => by simp at h⟩
  · simp only [Bool.true_eq_false, if_false]
    unfold pollFuel at hfuel
    obtain ⟨r, hr1, _⟩ := setExposureLoop_returns env hlive.rateSleep_pos target
      (env.now (setExposureEntry env target w).hw) fuel (env.currentExposure w.hw)
      (setExposureEntry env target w) (by omega) (by omega)
    have h2 := setExposureLoop_false env P hok hwithin.rateSleep_le target hnever
      (env.now (setExposureEntry env target w).hw) fuel (env.currentExposure w.hw)
      (setExposureEntry env target w) r (by unfold fiveSeconds; omega) hr1
    exact ⟨r, hr1, h2.1, fun _ => h2.2⟩

/-- Timeout bound of `setGain`. -/
theorem setGain_times_out (env : Env σ) (P : Nat) (hlive : Live env)
    (hwithin : PollWithin env P) (hok : ∀ s, env.ok s = true) (target : ℚ)
    (hnever : ∀ s, ¬ |env.currentGain s - target| < 1 / 100)
    (fuel : Nat) (hfuel : pollFuel ≤ fuel) (reached0 : ℚ) (w : Node σ) :
    ∃ r, setGain env fuel target reached0 w = .ok r ∧ r.ret = false ∧
      (env.isReady w.hw = true →
        (env.now r.node.hw : Int)
          ≤ (env.now (setGainEntry env target w).hw : Int) + fiveSeconds + P) := by
  unfold setGain
  cases hr : env.isReady w.hw
  · simp only [if_true]
    exact ⟨_, rfl, rfl, fun h => by simp at h⟩
  · simp only [Bool.true_eq_false, if_false]
    unfold pollFuel at hfuel
    obtain ⟨r, hr1, _⟩ := setGainLoop_returns env hlive.rateSleep_pos target
      (env.now (setGainEntry env target w).hw) fuel (env.currentGain w.hw)
      (setGainEntry env target w) (by omega) (by omega)
    have h2 := setGainLoop_false env P hok hwithin.rateSleep_le target hnever
      (env.now (setGainEntry env target w).hw) fuel (env.currentGain w.hw)
      (setGainEntry env target w) r (by unfold fiveSeconds; omega) hr1
    exact ⟨r, hr1, h2.1, fun _ => h2.2⟩

/-- Timeout bound of `setBrightness`, for a call whose first measurement is
more than 1.0 away from the target. -/
theorem setBrightness_times_out (env : Env σ) (P : Nat) (hlive : Live env)
    (hwithin : PollWithin env P) (hok : ∀ s, env.ok s = true) (target : Int)
    (hnever : ∀ buf s m, calcCurrentBrightness (env.grab buf s).2.1 = some m →
      ∀ s1, ¬ |m - (target : ℚ)| < env.maxBrightnessTolerance s1)
    (fuel : Nat) (hfuel : pollFuel ≤ fuel) (reached0 : Int) (w : Node σ)
    (hfirst : ∀ w2, setBrightnessEntry env fuel w = some w2 →
      ∀ m, calcCurrentBrightness w2.img_raw_msg_data = some m → 1 < |m - (target : ℚ)|) :
    ∃ r, setBrightness env fuel target reached0 w = .ok r ∧ r.ret = false ∧
      (∀ w2, setBrightnessEntry env fuel w = some w2 →
        (env.now r.node.hw : Int) ≤ (env.now w2.hw : Int) + brightnessTimeout target + P) := by
  have hfuel2 := hfuel
  unfold pollFuel at hfuel2
  obtain ⟨b, w1, hw1, _⟩ := waitForCameraLoop_returns env hlive.durationSleep_pos
    (env.now w.hw) fuel w (by omega) (by omega)
  unfold setBrightnessEntry waitForCamera at hfirst
  unfold setBrightness setBrightnessEntry waitForCamera
  rw [hw1] at hfirst
  rw [hw1]
  cases b
  · exact ⟨_, rfl, rfl, fun w2 h => by simp at h⟩
  · simp only at hfirst ⊢
    cases hg : (grabImage env w1).1
    · simp only [if_true]
      exact ⟨_, rfl, rfl, fun w2 h => by simp at h⟩
    · simp only [Bool.true_eq_false, if_false, if_true, Option.some.injEq, forall_eq',
        hg] at hfirst ⊢
      have hdata : (grabImage env w1).2.img_raw_msg_data ≠ [] := by
        rw [grabImage_data]
        exact hlive.frame_nonempty _ _ (Or.inl (by rw [← grabImage_fst]; exact hg))
      obtain ⟨m, hm⟩ := calcCurrentBrightness_isSome (grabImage env w1).2.img_raw_msg_data
        hdata
      have h1 := hfirst m hm
      simp only [hm, not_le.2 h1, if_false]
      obtain ⟨T, hT, hT15⟩ : ∃ T : Nat, brightnessTimeout target = (T : Int) ∧
          T ≤ 15000000000 := by
        unfold brightnessTimeout fifteenSeconds fiveSeconds
        split
        · exact ⟨15000000000, rfl, le_refl _⟩
        · exact ⟨5000000000, rfl, by omega⟩
      obtain ⟨r, _, hr, _, _⟩ := setBrightnessLoop_returns env hlive target T
        (env.now (grabImage env w1).2.hw) fuel 0 FLT_MAX m (grabImage env w1).2
        hdata (by omega) (by omega)
      have h2 := setBrightnessLoop_false env P hok hwithin target hnever (T : Int)
        (env.now (grabImage env w1).2.hw) fuel 0 FLT_MAX m (grabImage env w1).2 r
        (by omega) hr
      rw [hT, hr]
      exact ⟨_, rfl, h2.1, h2.2⟩

/-- The frame measured first by `setBrightness` is one the camera delivered. -/
theorem setBrightnessEntry_data (env : Env σ) (fuel : Nat) (w w2 : Node σ)
    (h : setBrightnessEntry env fuel w = some w2) :
    ∃ buf s, w2.img_raw_msg_data = (env.grab buf s).2.1 := by
  unfold setBrightnessEntry at h
  split at h
  · split at h
    · simp only [Option.some.injEq] at h
      subst h
      exact ⟨_, _, grabImage_data env _⟩
    · simp at h
  · simp at h

/-- The constant camera satisfies the progress assumptions. -/
theorem stuckEnv_live (c : MockCfg) (frame : Byte) : Live (stuckEnv c frame) := by
  refine ⟨?_, ?_, ?_, ?_⟩
  · intro s
    simp [stuckEnv]
  · intro s
    simp [stuckEnv]
  · intro t cur w
    simp [brightnessStep, grabImage, stuckEnv, Node.emit]
  · intro buf s _
    simp [stuckEnv]

/-- One poll iteration on the constant camera takes 100 ms. -/
theorem stuckEnv_within (c : MockCfg) (frame : Byte) :
    PollWithin (stuckEnv c frame) 100000000 := by
  refine ⟨?_, ?_, ?_⟩
  · intro s
    simp [stuckEnv]
  · intro t cur w
    simp [brightnessStep, grabImage, stuckEnv, Node.emit]
  · intro t cur w
    simp [brightnessStep, grabImage, stuckEnv, Node.emit]

/-- C5 fails as stated: a camera with brightness tolerance 1/2 whose frames
always measure 101 never reports a brightness within tolerance of the target
100, the shutdown signal is never raised and every poll takes 100 ms, yet
`setBrightness` returns true (from its initial check against the fixed bound
1.0), whatever the fuel. -/
theorem setBrightness_true_outside_tolerance :
    (∀ buf s, calcCurrentBrightness ((stuckEnv ⟨100, 1 / 2, 1, 1 / 2, 1⟩ 101).grab buf s).2.1
        = some 101) ∧
    ¬ (|(101 : ℚ) - ((100 : Int) : ℚ)| < 1 / 2) ∧
    (∀ fuel, setBrightness (stuckEnv ⟨100, 1 / 2, 1, 1 / 2, 1⟩ 101) (fuel + 1) 100 0
        ⟨0, [], false, []⟩
      = .ok ⟨true, 101, ⟨100000000, [101], false, [Call.grab Dest.rawMsg true]⟩⟩) := by
  have hc : calcCurrentBrightness [(101 : Byte)] = some 101 := by rfl
  refine ⟨fun _ _ => hc, by norm_num [abs_lt], ?_⟩
  intro fuel
  have ht : truncToInt (101 : ℚ) = 101 := by
    have := truncToInt_natCast 101
    simpa using this
  simp only [setBrightness, waitForCamera, waitForCameraLoop, stuckEnv, grabImage, if_true,
    Bool.true_eq_false, if_false, hc]
  norm_num [ht, abs_le]

/-- C5 as amended: with the shutdown signal never raised and every poll
iteration advancing the clock by a positive amount of at most `P`, a call with
fuel for the longest timeout returns false when the camera never reports a
value within tolerance (exposure step for `setExposure`, the absolute 0.01 for
`setGain`, `maxBrightnessTolerance` for the frames measured by
`setBrightness`), provided for `setBrightness` that its first measurement is
also more than 1.0 away from the target; the clock at return is at most the
timeout plus `P` past the clock at entry of the poll loop. -/
theorem convergence_timeout_bound (env : Env σ) (P : Nat) (hlive : Live env)
    (hwithin : PollWithin env P) (hok : ∀ s, env.ok s = true)
    (fuel : Nat) (hfuel : pollFuel ≤ fuel) :
    (∀ (target reached0 : ℚ) (w : Node σ),
      (∀ s, ¬ |env.currentExposure s - target| < env.exposureStep s) →
      ∃ r, setExposure env fuel target reached0 w = .ok r ∧ r.ret = false ∧
        (env.isReady w.hw = true →
          (env.now r.node.hw : Int)
            ≤ (env.now (setExposureEntry env target w).hw : Int) + fiveSeconds + P)) ∧
    (∀ (target reached0 : ℚ) (w : Node σ),
      (∀ s, ¬ |env.currentGain s - target| < 1 / 100) →
      ∃ r, setGain env fuel target reached0 w = .ok r ∧ r.ret = false ∧
        (env.isReady w.hw = true →
          (env.now r.node.hw : Int)
            ≤ (env.now (setGainEntry env target w).hw : Int) + fiveSeconds + P)) ∧
    (∀ (target reached0 : Int) (w : Node σ),
      (∀ buf s m, calcCurrentBrightness (env.grab buf s).2.1 = some m →
        ∀ s1, ¬ |m - (target : ℚ)| < env.maxBrightnessTolerance s1) →
      (∀ w2, setBrightnessEntry env fuel w = some w2 →
        ∀ m, calcCurrentBrightness w2.img_raw_msg_data = some m → 1 < |m - (target : ℚ)|) →
      ∃ r, setBrightness env fuel target reached0 w = .ok r ∧ r.ret = false ∧
        (∀ w2, setBrightnessEntry env fuel w = some w2 →
          (env.now r.node.hw : Int)
            ≤ (env.now w2.hw : Int) + brightnessTimeout target + P)) :=
  ⟨fun target reached0 w hnever =>
      setExposure_times_out env P hlive hwithin hok target hnever fuel hfuel reached0 w,
    fun target reached0 w hnever =>
      setGain_times_out env P hlive hwithin hok target hnever fuel hfuel reached0 w,
    fun target reached0 w hnever hfirst =>
      setBrightness_times_out env P hlive hwithin hok target hnever fuel hfuel reached0 w hfirst⟩

/-- The amended C5 on the constant camera (exposure 50, gain 1/4, frames
measuring 150, tolerance 5/2): the premises hold, and so do the premises of its
three parts for the targets 100, 1/2 and 100. -/
theorem convergence_timeout_bound_witness :
    Live (stuckEnv ⟨50, 1 / 4, 1, 5 / 2, 1⟩ 150) ∧
    PollWithin (stuckEnv ⟨50, 1 / 4, 1, 5 / 2, 1⟩ 150) 100000000 ∧
    (∀ s, (stuckEnv ⟨50, 1 / 4, 1, 5 / 2, 1⟩ 150).ok s = true) ∧
    pollFuel ≤ pollFuel ∧
    (∃ r, setExposure (stuckEnv ⟨50, 1 / 4, 1, 5 / 2, 1⟩ 150) pollFuel 100 0
        ⟨0, [], false, []⟩ = .ok r ∧ r.ret = false ∧
      (true = true → ((stuckEnv ⟨50, 1 / 4, 1, 5 / 2, 1⟩ 150).now r.node.hw : Int)
        ≤ ((stuckEnv ⟨50, 1 / 4, 1, 5 / 2, 1⟩ 150).now
            (setExposureEntry (stuckEnv ⟨50, 1 / 4, 1, 5 / 2, 1⟩ 150) 100
              ⟨0, [], false, []⟩).hw : Int) + fiveSeconds + (100000000 : Nat))) ∧
    (∃ r, setGain (stuckEnv ⟨50, 1 / 4, 1, 5 / 2, 1⟩ 150) pollFuel (1 / 2) 0
        ⟨0, [], false, []⟩ = .ok r ∧ r.ret = false ∧
      (true = true → ((stuckEnv ⟨50, 1 / 4, 1, 5 / 2, 1⟩ 150).now r.node.hw : Int)
        ≤ ((stuckEnv ⟨50, 1 / 4, 1, 5 / 2, 1⟩ 150).now
            (setGainEntry (stuckEnv ⟨50, 1 / 4, 1, 5 / 2, 1⟩ 150) (1 / 2)
              ⟨0, [], false, []⟩).hw : Int) + fiveSeconds + (100000000 : Nat))) ∧
    (∃ r, setBrightness (stuckEnv ⟨50, 1 / 4, 1, 5 / 2, 1⟩ 150) pollFuel 100 0
        ⟨0, [], false, []⟩ = .ok r ∧ r.ret = false ∧
      (∀ w2, setBrightnessEntry (stuckEnv ⟨50, 1 / 4, 1, 5 / 2, 1⟩ 150) pollFuel
          ⟨0, [], false, []⟩ = some w2 →
        ((stuckEnv ⟨50, 1 / 4, 1, 5 / 2, 1⟩ 150).now r.node.hw : Int)
          ≤ ((stuckEnv ⟨50, 1 / 4, 1, 5 / 2, 1⟩ 150).now w2.hw : Int)
            + brightnessTimeout 100 + (100000000 : Nat))) := by
  have hc : calcCurrentBrightness [(150 : Byte)] = some 150 := by rfl
  have hmain := convergence_timeout_bound (stuckEnv ⟨50, 1 / 4, 1, 5 / 2, 1⟩ 150) 100000000
    (stuckEnv_live _ _) (stuckEnv_within _ _) (fun _ => rfl) pollFuel (le_refl _)
  refine ⟨stuckEnv_live _ _, stuckEnv_within _ _, fun _ => rfl, le_refl _, ?_, ?_, ?_⟩
  · exact hmain.1 100 0 ⟨0, [], false, []⟩ (fun s => by norm_num [stuckEnv, abs_lt])
  · exact hmain.2.1 (1 / 2) 0 ⟨0, [], false, []⟩ (fun s => by
      norm_num [stuckEnv, abs_lt])
  · refine hmain.2.2 100 0 ⟨0, [], false, []⟩ ?_ ?_
    · intro buf s m hm s1
      have h2 : calcCurrentBrightness [(150 : Byte)] = some m := hm
      rw [hc] at h2
      simp only [Option.some.injEq] at h2
      subst h2
      norm_num [stuckEnv, abs_lt]
    · intro w2 hw2 m hm
      obtain ⟨buf, s, hdata⟩ := setBrightnessEntry_data _ _ _ _ hw2
      rw [hdata] at hm
      have h2 : calcCurrentBrightness [(150 : Byte)] = some m := hm
      rw [hc] at h2
      simp only [Option.some.injEq] at h2
      subst h2
      norm_num [lt_abs]

/-- A run of the poll loop of `setBrightness` on the scripted stand-in: target
200, tolerance 5/2, frames measuring 150, 150, 150, 150, 100, 100, 100, 50, 50.
The loop takes the stall exit in its ninth iteration. -/
theorem mock_interrupted_stall_run :
    setBrightnessLoop (mockEnv ⟨100, 1 / 2, 1, 5 / 2, 1⟩) 200 fiveSeconds 0 9 0 FLT_MAX 150
        ⟨⟨0, true, true, false,
          [(true, 150, []), (true, 150, []), (true, 150, []), (true, 150, []),
            (true, 100, []), (true, 100, []), (true, 100, []),
            (true, 50, []), (true, 50, [])]⟩, [150], false, []⟩
      = .ok ⟨false, 50, BrightnessExit.stalled,
          ⟨⟨900000000, true, true, false, []⟩, [50], false,
            [Call.camSetBrightness 200 150, Call.grab Dest.rawMsg true,
              Call.camSetBrightness 200 150, Call.grab Dest.rawMsg true,
              Call.camSetBrightness 200 150, Call.grab Dest.rawMsg true,
              Call.camSetBrightness 200 150, Call.grab Dest.rawMsg true,
              Call.camSetBrightness 200 150, Call.grab Dest.rawMsg true,
              Call.camSetBrightness 200 100, Call.grab Dest.rawMsg true,
              Call.camSetBrightness 200 100, Call.grab Dest.rawMsg true,
              Call.camSetBrightness 200 100, Call.grab Dest.rawMsg true,
              Call.camSetBrightness 200 50, Call.grab Dest.rawMsg true]⟩⟩ := by
  have h150 : calcCurrentBrightness [(150 : Byte)] = some 150 := by rfl
  have h100 : calcCurrentBrightness [(100 : Byte)] = some 100 := by rfl
  have h50 : calcCurrentBrightness [(50 : Byte)] = some 50 := by rfl
  norm_num [setBrightnessLoop, brightnessStep, grabImage, mockEnv, Node.emit, fiveSeconds,
    FLT_MAX, h150, h100, h50, abs_lt, abs_le]

/-- C12 fails as stated: in the run `mock_interrupted_stall_run` the loop takes
the stall exit in an iteration that is preceded by a single stalled iteration
only (the streak that ends at the exit has length 1, the iteration before it
changed the measurement from 100 to 50), because six stalled iterations have
accumulated since the loop started. -/
theorem stall_exit_without_consecutive_stalls :
    (∃ r, setBrightnessLoop (mockEnv ⟨100, 1 / 2, 1, 5 / 2, 1⟩) 200 fiveSeconds 0 9 0
        FLT_MAX 150
        ⟨⟨0, true, true, false,
          [(true, 150, []), (true, 150, []), (true, 150, []), (true, 150, []),
            (true, 100, []), (true, 100, []), (true, 100, []),
            (true, 50, []), (true, 50, [])]⟩, [150], false, []⟩ = .ok r ∧
      r.exit = BrightnessExit.stalled) ∧
    consecutiveStalls (mockEnv ⟨100, 1 / 2, 1, 5 / 2, 1⟩) 200 9 0 FLT_MAX 150
        ⟨⟨0, true, true, false,
          [(true, 150, []), (true, 150, []), (true, 150, []), (true, 150, []),
            (true, 100, []), (true, 100, []), (true, 100, []),
            (true, 50, []), (true, 50, [])]⟩, [150], false, []⟩ = 1 ∧
    stallCount (mockEnv ⟨100, 1 / 2, 1, 5 / 2, 1⟩) 200 9 FLT_MAX 150
        ⟨⟨0, true, true, false,
          [(true, 150, []), (true, 150, []), (true, 150, []), (true, 150, []),
            (true, 100, []), (true, 100, []), (true, 100, []),
            (true, 50, []), (true, 50, [])]⟩, [150], false, []⟩ = 6 := by
  have h150 : calcCurrentBrightness [(150 : Byte)] = some 150 := by rfl
  have h100 : calcCurrentBrightness [(100 : Byte)] = some 100 := by rfl
  have h50 : calcCurrentBrightness [(50 : Byte)] = some 50 := by rfl
  refine ⟨⟨_, mock_interrupted_stall_run, rfl⟩, ?_, ?_⟩
  · norm_num [consecutiveStalls, brightnessStep, grabImage, mockEnv, Node.emit,
      FLT_MAX, h150, h100, h50, abs_le]
  · norm_num [stallCount, brightnessStep, grabImage, mockEnv, Node.emit,
      FLT_MAX, h150, h100, h50, abs_le]

/-- A stall exit happens in the first iteration at which the cumulative count
of stalled iterations exceeds 5. -/
theorem stall_exit_first_excess (env : Env σ) (target timeout : Int) (start : Nat) :
    ∀ (fuel ctr : Nat) (last cur : ℚ) (w : Node σ) (r : BrightnessRet σ),
      setBrightnessLoop env target timeout start fuel ctr last cur w = .ok r →
      r.exit = BrightnessExit.stalled →
      ∃ n, 0 < n ∧ n ≤ fuel ∧
        pollState env target n cur w = some (r.current_brightness, r.node) ∧
        pollsOn env target timeout start n cur w = true ∧
        5 < ctr + stallCount env target n last cur w ∧
        (∀ j, 0 < j → j < n → ctr + stallCount env target j last cur w ≤ 5) ∧
        (ctr ≤ 5 → ctr + stallCount env target n last cur w = 6) := by
  intro fuel
  induction fuel with
  | zero => intro _ _ _ _ _ h; simp [setBrightnessLoop] at h
  | succ fuel ih =>
    intro ctr last cur w r h hexit
    unfold setBrightnessLoop at h
    cases hok : env.ok w.hw
    · simp only [hok, Bool.false_eq_true, if_false, Except.ok.injEq] at h
      subst h
      simp at hexit
    · simp only [hok, if_true] at h
      cases hc : calcCurrentBrightness (brightnessStep env target cur w).img_raw_msg_data with
      | none => simp [hc] at h
      | some m =>
        simp only [hc] at h
        by_cases hs : |m - (target : ℚ)| <
            env.maxBrightnessTolerance (brightnessStep env target cur w).hw
        · simp only [hs, if_true, Except.ok.injEq] at h
          subst h
          simp at hexit
        · simp only [hs, if_false] at h
          by_cases ht : timeout <
              (env.now (brightnessStep env target cur w).hw : Int) - (start : Int)
          · simp only [ht, if_true, Except.ok.injEq] at h
            subst h
            simp at hexit
          · simp only [ht, if_false] at h
            have hcount : ∀ k, ctr + stallCount env target (k + 1) last cur w
                = (if |last - m| ≤ 1 then ctr + 1 else ctr)
                  + stallCount env target k m m (brightnessStep env target cur w) := by
              intro k
              simp only [stallCount, hc]
              split <;> omega
            by_cases h5 : 5 < (if |last - m| ≤ 1 then ctr + 1 else ctr)
            · simp only [h5, if_true, Except.ok.injEq] at h
              subst h
              refine ⟨1, Nat.one_pos, by omega, ?_, ?_, ?_, ?_, ?_⟩
              · simp [pollState, hc]
              · simp [pollsOn, hok, hc, hs, ht]
              · rw [hcount 0]
                simpa [stallCount] using h5
              · intro j hj0 hj1
                omega
              · intro hle
                rw [hcount 0]
                simp only [stallCount, Nat.add_zero]
                split at h5 <;> rename_i hl <;> simp only [hl, if_true, if_false] <;> omega
            · simp only [h5, if_false] at h
              obtain ⟨n, hn0, hn, hstate, hon, hgt, hfirst, heq⟩ := ih _ m m _ r h hexit
              refine ⟨n + 1, Nat.succ_pos n, by omega, ?_, ?_, ?_, ?_, ?_⟩
              · simp only [pollState, hc]
                exact hstate
              · simp only [pollsOn, hok, hc, hs, ht, hon, decide_False, Bool.not_false,
                  Bool.and_self]
              · rw [hcount n]
                exact hgt
              · intro j hj0 hj1
                obtain ⟨k, rfl⟩ : ∃ k, j = k + 1 := ⟨j - 1, by omega⟩
                rw [hcount k]
                by_cases hk : k = 0
                · subst hk
                  simp only [stallCount, Nat.add_zero]
                  omega
                · exact hfirst k (by omega) (by omega)
              · intro _
                rw [hcount n]
                exact heq (by omega)

/-- Once the cumulative count of stalled iterations exceeds 5 within polls that
leave by no other exit, the loop takes the stall exit. -/
theorem stall_exit_of_excess (env : Env σ) (target timeout : Int) (start : Nat) :
    ∀ (n fuel ctr : Nat) (last cur : ℚ) (w : Node σ),
      0 < n → n ≤ fuel → pollsOn env target timeout start n cur w = true →
      5 < ctr + stallCount env target n last cur w →
      ∃ r, setBrightnessLoop env target timeout start fuel ctr last cur w = .ok r ∧
        r.exit = BrightnessExit.stalled := by
  intro n
  induction n with
  | zero => intro _ _ _ _ _ h0; exact absurd h0 (lt_irrefl 0)
  | succ n ih =>
    intro fuel ctr last cur w _ hfuel hon hgt
    obtain ⟨fuel1, rfl⟩ : ∃ k, fuel = k + 1 := ⟨fuel - 1, by omega⟩
    unfold pollsOn at hon
    simp only [Bool.and_eq_true] at hon
    obtain ⟨hok, hon⟩ := hon
    unfold setBrightnessLoop
    simp only [hok, if_true]
    cases hc : calcCurrentBrightness (brightnessStep env target cur w).img_raw_msg_data with
    | none => simp [hc] at hon
    | some m =>
      simp only [hc, Bool.and_eq_true, Bool.not_eq_true', decide_eq_false_iff_not] at hon
      obtain ⟨⟨hs, ht⟩, hrest⟩ := hon
      simp only [hs, ht, if_false]
      have hcount : ctr + stallCount env target (n + 1) last cur w
          = (if |last - m| ≤ 1 then ctr + 1 else ctr)
            + stallCount env target n m m (brightnessStep env target cur w) := by
        simp only [stallCount, hc]
        split <;> omega
      rw [hcount] at hgt
      by_cases h5 : 5 < (if |last - m| ≤ 1 then ctr + 1 else ctr)
      · simp only [h5, if_true]
        exact ⟨_, rfl, rfl⟩
      · simp only [h5, if_false]
        have hn0 : 0 < n := by
          rcases Nat.eq_zero_or_pos n with h0 | h0
          · subst h0
            simp only [stallCount, Nat.add_zero] at hgt
            exact absurd hgt h5
          · exact h0
        exact ih fuel1 _ m m _ hn0 (by omega) hrest hgt


/-- C12 as amended: the stall exit is governed by the cumulative count of
stalled iterations (measurement within 1.0 of the preceding one), which starts
at the counter's value on entry and is never restarted. If the loop takes the
stall exit it does so in its `n`-th iteration, where `n` is the first iteration
at which that count exceeds 5 (it is then exactly 6 when the counter was at
most 5 on entry); conversely, whenever the count exceeds 5 within `n` polls
that leave by no other exit (shutdown, tolerance, timeout, fuel), the loop
takes the stall exit, also when changing iterations lie between the stalled
ones. -/
theorem stall_exit_counts_all_stalls (env : Env σ) (target_brightness timeout : Int)
    (start fuel fail_safe_ctr : Nat) (last_brightness current_brightness : ℚ) (w : Node σ) :
    (∀ r : BrightnessRet σ,
      setBrightnessLoop env target_brightness timeout start fuel fail_safe_ctr
        last_brightness current_brightness w = .ok r →
      r.exit = BrightnessExit.stalled →
      ∃ n, 0 < n ∧ n ≤ fuel ∧
        pollState env target_brightness n current_brightness w
          = some (r.current_brightness, r.node) ∧
        pollsOn env target_brightness timeout start n current_brightness w = true ∧
        5 < fail_safe_ctr
          + stallCount env target_brightness n last_brightness current_brightness w ∧
        (∀ j, 0 < j → j < n → fail_safe_ctr
          + stallCount env target_brightness j last_brightness current_brightness w ≤ 5) ∧
        (fail_safe_ctr ≤ 5 → fail_safe_ctr
          + stallCount env target_brightness n last_brightness current_brightness w = 6)) ∧
    (∀ n, 0 < n → n ≤ fuel →
      pollsOn env target_brightness timeout start n current_brightness w = true →
      5 < fail_safe_ctr
        + stallCount env target_brightness n last_brightness current_brightness w →
      ∃ r, setBrightnessLoop env target_brightness timeout start fuel fail_safe_ctr
          last_brightness current_brightness w = .ok r ∧
        r.exit = BrightnessExit.stalled) :=
  ⟨fun r h hexit => stall_exit_first_excess env target_brightness timeout start fuel
      fail_safe_ctr last_brightness current_brightness w r h hexit,
    fun n hn0 hn hon hgt => stall_exit_of_excess env target_brightness timeout start n fuel
      fail_safe_ctr last_brightness current_brightness w hn0 hn hon hgt⟩

/-- The amended C12 on the run `mock_interrupted_stall_run`: the loop takes the
stall exit, in the first iteration at which six stalled iterations have
accumulated; and the nine polls, which leave by no other exit and hold six
stalled iterations separated by two changes, force the stall exit. -/
theorem stall_exit_counts_all_stalls_witness :
    (∃ r, setBrightnessLoop (mockEnv ⟨100, 1 / 2, 1, 5 / 2, 1⟩) 200 fiveSeconds 0 9 0
        FLT_MAX 150
        ⟨⟨0, true, true, false,
          [(true, 150, []), (true, 150, []), (true, 150, []), (true, 150, []),
            (true, 100, []), (true, 100, []), (true, 100, []),
            (true, 50, []), (true, 50, [])]⟩, [150], false, []⟩ = .ok r ∧
      r.exit = BrightnessExit.stalled ∧
      ∃ n, 0 < n ∧ n ≤ 9 ∧
        pollState (mockEnv ⟨100, 1 / 2, 1, 5 / 2, 1⟩) 200 n 150
          ⟨⟨0, true, true, false,
            [(true, 150, []), (true, 150, []), (true, 150, []), (true, 150, []),
              (true, 100, []), (true, 100, []), (true, 100, []),
              (true, 50, []), (true, 50, [])]⟩, [150], false, []⟩
          = some (r.current_brightness, r.node) ∧
        5 < 0 + stallCount (mockEnv ⟨100, 1 / 2, 1, 5 / 2, 1⟩) 200 n FLT_MAX 150
          ⟨⟨0, true, true, false,
            [(true, 150, []), (true, 150, []), (true, 150, []), (true, 150, []),
              (true, 100, []), (true, 100, []), (true, 100, []),
              (true, 50, []), (true, 50, [])]⟩, [150], false, []⟩ ∧
        (∀ j, 0 < j → j < n →
          0 + stallCount (mockEnv ⟨100, 1 / 2, 1, 5 / 2, 1⟩) 200 j FLT_MAX 150
            ⟨⟨0, true, true, false,
              [(true, 150, []), (true, 150, []), (true, 150, []), (true, 150, []),
                (true, 100, []), (true, 100, []), (true, 100, []),
                (true, 50, []), (true, 50, [])]⟩, [150], false, []⟩ ≤ 5)) ∧
    (pollsOn (mockEnv ⟨100, 1 / 2, 1, 5 / 2, 1⟩) 200 fiveSeconds 0 9 150
        ⟨⟨0, true, true, false,
          [(true, 150, []), (true, 150, []), (true, 150, []), (true, 150, []),
            (true, 100, []), (true, 100, []), (true, 100, []),
            (true, 50, []), (true, 50, [])]⟩, [150], false, []⟩ = true ∧
      5 < 0 + stallCount (mockEnv ⟨100, 1 / 2, 1, 5 / 2, 1⟩) 200 9 FLT_MAX 150
        ⟨⟨0, true, true, false,
          [(true, 150, []), (true, 150, []), (true, 150, []), (true, 150, []),
            (true, 100, []), (true, 100, []), (true, 100, []),
            (true, 50, []), (true, 50, [])]⟩, [150], false, []⟩ ∧
      ∃ r, setBrightnessLoop (mockEnv ⟨100, 1 / 2, 1, 5 / 2, 1⟩) 200 fiveSeconds 0 9 0
          FLT_MAX 150
          ⟨⟨0, true, true, false,
            [(true, 150, []), (true, 150, []), (true, 150, []), (true, 150, []),
              (true, 100, []), (true, 100, []), (true, 100, []),
              (true, 50, []), (true, 50, [])]⟩, [150], false, []⟩ = .ok r ∧
        r.exit = BrightnessExit.stalled) := by
  have h150 : calcCurrentBrightness [(150 : Byte)] = some 150 := by rfl
  have h100 : calcCurrentBrightness [(100 : Byte)] = some 100 := by rfl
  have h50 : calcCurrentBrightness [(50 : Byte)] = some 50 := by rfl
  have hmain := stall_exit_counts_all_stalls (mockEnv ⟨100, 1 / 2, 1, 5 / 2, 1⟩) 200
    fiveSeconds 0 9 0 FLT_MAX 150
    ⟨⟨0, true, true, false,
      [(true, 150, []), (true, 150, []), (true, 150, []), (true, 150, []),
        (true, 100, []), (true, 100, []), (true, 100, []),
        (true, 50, []), (true, 50, [])]⟩, [150], false, []⟩
  have hon : pollsOn (mockEnv ⟨100, 1 / 2, 1, 5 / 2, 1⟩) 200 fiveSeconds 0 9 150
      ⟨⟨0, true, true, false,
        [(true, 150, []), (true, 150, []), (true, 150, []), (true, 150, []),
          (true, 100, []), (true, 100, []), (true, 100, []),
          (true, 50, []), (true, 50, [])]⟩, [150], false, []⟩ = true := by
    norm_num [pollsOn, brightnessStep, grabImage, mockEnv, Node.emit, fiveSeconds,
      h150, h100, h50, abs_lt]
  have hcnt : 5 < 0 + stallCount (mockEnv ⟨100, 1 / 2, 1, 5 / 2, 1⟩) 200 9 FLT_MAX 150
      ⟨⟨0, true, true, false,
        [(true, 150, []), (true, 150, []), (true, 150, []), (true, 150, []),
          (true, 100, []), (true, 100, []), (true, 100, []),
          (true, 50, []), (true, 50, [])]⟩, [150], false, []⟩ := by
    norm_num [stallCount, brightnessStep, grabImage, mockEnv, Node.emit,
      FLT_MAX, h150, h100, h50, abs_le]
  refine ⟨?_, hon, hcnt, hmain.2 9 (by omega) (le_refl _) hon hcnt⟩
  obtain ⟨n, hn0, hn, hstate, _, hgt, hfirst, _⟩ :=
    hmain.1 _ mock_interrupted_stall_run rfl
  exact ⟨_, mock_interrupted_stall_run, rfl, n, hn0, hn, hstate, hgt, hfirst⟩

/-- Six polls measuring 150 after a measurement of 150, against the target 100
with tolerance 5/2: the premise of C6 holds on the scripted stand-in and the
loop ends within six iterations, whatever the timeout. -/
theorem setBrightnessLoop_stall_exit_witness :
    stalledFor (mockEnv ⟨100, 1 / 2, 1, 5 / 2, 1⟩) 100 6 150 150
        ⟨⟨0, true, true, false,
          [(true, 150, []), (true, 150, []), (true, 150, []), (true, 150, []),
            (true, 150, []), (true, 150, [])]⟩, [150], false, []⟩ = true ∧
    ∃ r, setBrightnessLoop (mockEnv ⟨100, 1 / 2, 1, 5 / 2, 1⟩) 100 fifteenSeconds 0 6 0
        150 150
        ⟨⟨0, true, true, false,
          [(true, 150, []), (true, 150, []), (true, 150, []), (true, 150, []),
            (true, 150, []), (true, 150, [])]⟩, [150], false, []⟩ = .ok r ∧
      r.is_brightness_reached = false := by
  have h150 : calcCurrentBrightness [(150 : Byte)] = some 150 := by rfl
  have hst : stalledFor (mockEnv ⟨100, 1 / 2, 1, 5 / 2, 1⟩) 100 6 150 150
      ⟨⟨0, true, true, false,
        [(true, 150, []), (true, 150, []), (true, 150, []), (true, 150, []),
          (true, 150, []), (true, 150, [])]⟩, [150], false, []⟩ = true := by
    norm_num [stalledFor, brightnessStep, grabImage, mockEnv, Node.emit, h150, abs_lt, abs_le]
  exact ⟨hst, setBrightnessLoop_stall_exit (mockEnv ⟨100, 1 / 2, 1, 5 / 2, 1⟩) 100
    fifteenSeconds 0 0 150 150 _ hst⟩

/-- C13: on a camera whose frames always measure 150, `setBrightness` towards
200 issues seven hardware brightness commands, leaves its poll loop through the
stall exit and returns false without any call of
`disableAllRunningAutoBrightessFunctions`. -/
theorem setBrightness_stall_exit_skips_disable :
    ∃ r, setBrightness (mockEnv ⟨100, 1 / 2, 1, 5 / 2, 1⟩) 7 200 0
        ⟨⟨0, true, true, false,
          [(true, 150, []), (true, 150, []), (true, 150, []), (true, 150, []),
            (true, 150, []), (true, 150, []), (true, 150, []), (true, 150, [])]⟩,
          [], false, []⟩ = .ok r ∧
      r.ret = false ∧
      r.node.log =
        [Call.grab Dest.rawMsg true,
          Call.camSetBrightness 200 150, Call.grab Dest.rawMsg true,
          Call.camSetBrightness 200 150, Call.grab Dest.rawMsg true,
          Call.camSetBrightness 200 150, Call.grab Dest.rawMsg true,
          Call.camSetBrightness 200 150, Call.grab Dest.rawMsg true,
          Call.camSetBrightness 200 150, Call.grab Dest.rawMsg true,
          Call.camSetBrightness 200 150, Call.grab Dest.rawMsg true,
          Call.camSetBrightness 200 150, Call.grab Dest.rawMsg true] ∧
      Call.disableAuto ∉ r.node.log := by
  have h150 : calcCurrentBrightness [(150 : Byte)] = some 150 := by rfl
  norm_num [setBrightness, waitForCamera, waitForCameraLoop, setBrightnessLoop,
    brightnessTimeout, brightnessStep, grabImage, mockEnv, Node.emit, fiveSeconds,
    fifteenSeconds, threeSeconds, FLT_MAX, h150, abs_lt, abs_le]
  simp

/-! ## What the setters guarantee while the shutdown signal stays down -/

/-- While `ros::ok()` holds in every state, a true return of the poll loop of
`setExposure` reports a value within the exposure step of the target. -/
theorem setExposureLoop_true_within (env : Env σ) (hok : ∀ s, env.ok s = true)
    (target : ℚ) (start : Nat) :
    ∀ (fuel : Nat) (reached : ℚ) (w : Node σ) (r : Ret ℚ σ),
      setExposureLoop env target start fuel reached w = .ok r → r.ret = true →
      |r.reached - target| < env.exposureStep r.node.hw := by
  intro fuel
  induction fuel with
  | zero => intro _ _ _ h; simp [setExposureLoop] at h
  | succ fuel ih =>
    intro reached w r h hret
    unfold setExposureLoop at h
    simp only [hok, if_true] at h
    by_cases hs : |env.currentExposure w.hw - target| < env.exposureStep w.hw
    · simp only [hs, if_true, Except.ok.injEq] at h
      subst h
      exact hs
    · simp only [hs, if_false] at h
      by_cases ht : fiveSeconds < (env.now w.hw : Int) - (start : Int)
      · simp only [ht, if_true, Except.ok.injEq] at h
        subst h
        simp at hret
      · simp only [ht, if_false] at h
        exact ih _ _ r h hret

/-- While `ros::ok()` holds in every state, a true return of the poll loop of
`setGain` reports a value within 0.01 of the target. -/
theorem setGainLoop_true_within (env : Env σ) (hok : ∀ s, env.ok s = true)
    (target : ℚ) (start : Nat) :
    ∀ (fuel : Nat) (reached : ℚ) (w : Node σ) (r : Ret ℚ σ),
      setGainLoop env target start fuel reached w = .ok r → r.ret = true →
      |r.reached - target| < 1 / 100 := by
  intro fuel
  induction fuel with
  | zero => intro _ _ _ h; simp [setGainLoop] at h
  | succ fuel ih =>
    intro reached w r h hret
    unfold setGainLoop at h
    simp only [hok, if_true] at h
    by_cases hs : |env.currentGain w.hw - target| < 1 / 100
    · simp only [hs, if_true, Except.ok.injEq] at h
      subst h
      exact hs
    · simp only [hs, if_false] at h
      by_cases ht : fiveSeconds < (env.now w.hw : Int) - (start : Int)
      · simp only [ht, if_true, Except.ok.injEq] at h
        subst h
        simp at hret
      · simp only [ht, if_false] at h
        exact ih _ _ r h hret

/-- The method `grabImage` never logs a disabling of the auto functions. -/
theorem grabImage_log_no_disable (env : Env σ) (w : Node σ) :
    ∃ g, (grabImage env w).2.log = w.log ++ g ∧ Call.disableAuto ∉ g := by
  cases h : (env.grab w.img_raw_msg_data w.hw).1
  · cases h2 : env.isCamRemoved (env.grab w.img_raw_msg_data w.hw).2.2
    · exact ⟨[Call.grab Dest.rawMsg false], by simp [grabImage, h, h2], by simp⟩
    · exact ⟨[Call.grab Dest.rawMsg false, Call.shutdown],
        by simp [grabImage, h, h2, Node.emit], by simp⟩
  · exact ⟨[Call.grab Dest.rawMsg true], by simp [grabImage, h], by simp⟩

/-- The exits of the poll loop of `setBrightness` and the disabling of the auto
functions: the exits on tolerance and on timeout log the disabling as their last
command; the stall exit and the exit on the shutdown signal log no disabling
after the last hardware brightness command of the loop. -/
theorem setBrightnessLoop_exit_log (env : Env σ) (target timeout : Int) (start : Nat) :
    ∀ (fuel ctr : Nat) (last cur : ℚ) (w : Node σ) (r : BrightnessRet σ),
      setBrightnessLoop env target timeout start fuel ctr last cur w = .ok r →
      ((r.exit = BrightnessExit.reached ∨ r.exit = BrightnessExit.timedOut) →
        ∃ l, r.node.log = l ++ [Call.disableAuto]) ∧
      (r.exit = BrightnessExit.stalled →
        ∃ l c inner, r.node.log = l ++ Call.camSetBrightness target c :: inner ∧
          Call.disableAuto ∉ inner) := by
  intro fuel
  induction fuel with
  | zero => intro _ _ _ _ _ h; simp [setBrightnessLoop] at h
  | succ fuel ih =>
    intro ctr last cur w r h
    unfold setBrightnessLoop at h
    cases hok : env.ok w.hw
    · simp only [hok, Bool.false_eq_true, if_false, Except.ok.injEq] at h
      subst h
      simp
    · simp only [hok, if_true] at h
      cases hc : calcCurrentBrightness (brightnessStep env target cur w).img_raw_msg_data with
      | none => simp [hc] at h
      | some m =>
        simp only [hc] at h
        by_cases hs : |m - (target : ℚ)| <
            env.maxBrightnessTolerance (brightnessStep env target cur w).hw
        · simp only [hs, if_true, Except.ok.injEq] at h
          subst h
          exact ⟨fun _ => ⟨_, rfl⟩, fun h => by simp at h⟩
        · simp only [hs, if_false] at h
          by_cases ht : timeout <
              (env.now (brightnessStep env target cur w).hw : Int) - (start : Int)
          · simp only [ht, if_true, Except.ok.injEq] at h
            subst h
            exact ⟨fun _ => ⟨_, rfl⟩, fun h => by simp at h⟩
          · simp only [ht, if_false] at h
            generalize (if |last - m| ≤ 1 then ctr + 1 else ctr) = ctr1 at h
            by_cases h5 : 5 < ctr1
            · simp only [h5, if_true, Except.ok.injEq] at h
              subst h
              refine ⟨fun h => by simp at h, fun _ => ?_⟩
              obtain ⟨g, hlog, hg⟩ := grabImage_log_no_disable env
                (w.emit (Call.camSetBrightness target cur) (env.setBrightness target cur w.hw))
              refine ⟨w.log, cur, g, ?_, hg⟩
              show (brightnessStep env target cur w).log = _
              rw [brightnessStep, hlog]
              simp [Node.emit]
            · simp only [h5, if_false] at h
              exact ih ctr1 m m _ r h

end PylonCamera
